import Mathlib

/-!
TUN/TAP device setup (`syscalls_linux.go`).

A shallow embedding of the Linux setup path of the `water` package: the
creation-flags assembly and request sequencing of `setupFd`, the fixed-layout
creation request of `createInterface`, and the option requests of
`setDeviceOptions`.

The kernel is an oracle: every `ioctl` asks it for an error number (and, for a
request passed by reference, the content of the buffer after the call).  The
effect of a run is the list of requests it issued, in order, each with the
error number the kernel answered.
-/

namespace Water

/-! ## Go values -/

/-- A Go `byte`. -/
abbrev Byte := Fin 256

/-- A Go `string`: a sequence of bytes (not necessarily text). -/
abbrev GoString := List Byte

/-- The bytes of a Go string literal whose characters are all ASCII. -/
def ascii (s : String) : GoString :=
  s.toList.map fun c => Fin.ofNat c.toNat

/-- The verb `%d` of package `fmt` applied to a non-negative integer. -/
def fmtD (n : Nat) : GoString :=
  ascii (Nat.repr n)

/-- Go errors built by this file: `*os.SyscallError` (from `os.NewSyscallError`),
the plain error of `fmt.Errorf` (no `%w` verb), and the joined error of
`errors.Join`. -/
inductive GoError where
  | SyscallError (Syscall : String) (Err : Nat)
  | errorString (s : GoString)
  | joinError (errs : List GoError)

/-- `errors.Join`: the nil errors are discarded; the result is nil when none is
left, and otherwise wraps the remaining errors in order. -/
def errorsJoin (errs : List (Option GoError)) : Option GoError :=
  match errs.filterMap id with
  | [] => none
  | es => some (GoError.joinError es)

/-- `copy(dst, src)` for a byte slice `dst` and a string `src`: the first
`min(len(dst), len(src))` bytes of `dst` are overwritten, the rest kept. -/
def copy (dst : List Byte) (src : GoString) : List Byte :=
  src.take dst.length ++ dst.drop (min dst.length src.length)

/-- `trimLeftByte` of package `strings`. -/
def trimLeftByte : GoString → Byte → GoString
  | [], _ => []
  | b :: s, c => if b = c then trimLeftByte s c else b :: s

/-- `trimRightByte` of package `strings`. -/
def trimRightByte (s : GoString) (c : Byte) : GoString :=
  (trimLeftByte s.reverse c).reverse

/-- `strings.Trim(s, cutset)` for a cutset of one ASCII byte `c`: the standard
library strips `c` from the right and then from the left. -/
def stringsTrim (s : GoString) (c : Byte) : GoString :=
  trimLeftByte (trimRightByte s c) c

/-! ## Constants and the creation request -/

def cIFFTUN : Nat := 0x0001
def cIFFTAP : Nat := 0x0002
def cIFFNOPI : Nat := 0x1000
def cIFFMULTIQUEUE : Nat := 0x0100

/-- The request structure `ifReq`: a 16-byte name, a `uint16` of flags and
`0x28 - 0x10 - 2` bytes of padding. -/
structure ifReq where
  Name : { l : List Byte // l.length = 0x10 }
  Flags : Nat
  pad : { l : List Byte // l.length = 0x28 - 0x10 - 2 }

/-- The zero value of `ifReq` (`var req ifReq`). -/
def ifReq.zero : ifReq :=
  { Name := ⟨List.replicate 0x10 0, by simp⟩
    Flags := 0
    pad := ⟨List.replicate (0x28 - 0x10 - 2) 0, by simp⟩ }

/-- The two bytes of a `uint16` in memory, in the byte order of the platform
(`littleEndian = true` on amd64 and arm64). -/
def uint16Bytes (littleEndian : Bool) (v : Nat) : List Byte :=
  if littleEndian then [Fin.ofNat (v % 256), Fin.ofNat (v / 256 % 256)]
  else [Fin.ofNat (v / 256 % 256), Fin.ofNat (v % 256)]

/-- The `uint16` stored in two bytes of memory. -/
def uint16OfBytes (littleEndian : Bool) : List Byte → Nat
  | [a, b] => if littleEndian then a.val + 256 * b.val else 256 * a.val + b.val
  | _ => 0

/-- The memory image of an `ifReq`, the buffer handed to the kernel: the fields
in declaration order (`Name` at 0x00, `Flags` at 0x10, `pad` at 0x12; no
alignment gap, every offset being even). -/
def ifReq.bytes (littleEndian : Bool) (r : ifReq) : List Byte :=
  r.Name.val ++ uint16Bytes littleEndian r.Flags ++ r.pad.val

/-! ## Configuration -/

/-- Modelled from the spec: the device-type enumeration with the members TUN and
TAP, whose declaration is not in `syscalls_linux.go`.  A Go enumeration is an
integer type, so a value that is neither member can be stored in it. -/
abbrev DeviceType := Int

/-- Modelled from the spec: the member TUN of the device-type enumeration. -/
def TUN : DeviceType := 1

/-- Modelled from the spec: the member TAP of the device-type enumeration. -/
def TAP : DeviceType := 2

/-- Modelled from the spec: the optional ownership pair (owner id, group id) of
the configuration record, both `uint`. -/
structure DevicePermissions where
  Owner : Nat
  Group : Nat

/-- Modelled from the spec: the platform specific toggles of the configuration
record, with the field names `setupFd` and `setDeviceOptions` read. -/
structure PlatformSpecificParams where
  MultiQueue : Bool
  VnetHdrSize : Nat
  TunFCSum : Bool
  TunFTso4 : Bool
  TunFTso6 : Bool
  TunFTsoEcn : Bool
  TunFUso4 : Bool
  TunFUso6 : Bool

/-- Modelled from the spec: the configuration record, with the field names
`setupFd` and `setDeviceOptions` read.  `Permissions` is a pointer that may be
nil. -/
structure Config where
  DeviceType : DeviceType
  Name : GoString
  Permissions : Option DevicePermissions
  PlatformSpecificParams : PlatformSpecificParams
  Persist : Bool

/-! ## The kernel oracle and the request trace -/

/-- The request codes of package `syscall` used by this file. -/
inductive Request where
  | TUNSETIFF
  | TUNSETOWNER
  | TUNSETGROUP
  | TUNSETVNETHDRSZ
  | TUNSETOFFLOAD
  | TUNSETPERSIST
  deriving DecidableEq, Repr

/-- The third argument of `ioctl`: an immediate integer, the address of an
`ifReq` (with the content of the structure at the time of the call) or the
address of a `uint` (with its value). -/
inductive Argp where
  | imm (v : Nat)
  | ifReqPtr (req : ifReq)
  | uintPtr (v : Nat)

/-- One issued request: the arguments of `ioctl` and the error number the
kernel answered (0 for success). -/
structure Event where
  fd : Nat
  request : Request
  argp : Argp
  errno : Nat

/-- The requests issued so far, oldest first. -/
abbrev Trace := List Event

/-- The answer of the kernel to one request: the error number and the content
of the `ifReq` behind the argument after the call (read only for a request that
passes one by reference). -/
structure Reply where
  errno : Nat
  req : ifReq

/-- The kernel: an answer for every request, which may depend on everything
issued before. -/
abbrev Kernel := Trace → Nat → Request → Argp → Reply

/-- The outcome of one `ioctl`: the returned error, the request structure as
the kernel left it, and the extended trace. -/
structure IoctlResult where
  err : Option GoError
  req : ifReq
  trace : Trace

/-- The function `ioctl`: one system call; a non-zero error number is wrapped
by `os.NewSyscallError("ioctl", errno)`. -/
def ioctl (k : Kernel) (fd : Nat) (request : Request) (argp : Argp) (tr : Trace) :
    IoctlResult :=
  let r := k tr fd request argp
  { err := if r.errno ≠ 0 then some (GoError.SyscallError "ioctl" r.errno) else none
    req := r.req
    trace := tr ++ [⟨fd, request, argp, r.errno⟩] }

/-- The outcome of `createInterface` and of `setupFd`: the pair `(name, err)`
and the trace. -/
structure NameResult where
  name : GoString
  err : Option GoError
  trace : Trace

/-- The outcome of `setDeviceOptions`: the error and the trace. -/
structure ErrResult where
  err : Option GoError
  trace : Trace

/-- The request structure `createInterface` builds before the call: the zero
value with `Flags` set and the name copied into `Name`. -/
def createInterface.request (ifName : GoString) (flags : Nat) : ifReq :=
  { ifReq.zero with
    Flags := flags
    Name := ⟨copy ifReq.zero.Name.val ifName, by
      simp only [copy, List.length_append, List.length_take, List.length_drop,
        ifReq.zero.Name.property]
      omega⟩ }

/-- The function `createInterface`. -/
def createInterface (k : Kernel) (fd : Nat) (ifName : GoString) (flags : Nat) (tr : Trace) :
    NameResult :=
  let req := createInterface.request ifName flags
  let r := ioctl k fd Request.TUNSETIFF (Argp.ifReqPtr req) tr
  match r.err with
  | some err =>
    { name := []
      err := errorsJoin [some err,
        some (GoError.errorString (ascii "ioctl(fd, TUNSETIFF, " ++ ifName ++ ascii ")"))]
      trace := r.trace }
  | none =>
    { name := stringsTrim r.req.Name.val 0
      err := none
      trace := r.trace }

/-- The offload mask `off_flags` assembled by `setDeviceOptions`. -/
def offFlags (p : PlatformSpecificParams) : Nat :=
  let off_flags := 0
  let off_flags := if p.TunFCSum then off_flags ||| 1 else off_flags
  let off_flags := if p.TunFTso4 then off_flags ||| 2 else off_flags
  let off_flags := if p.TunFTso6 then off_flags ||| 4 else off_flags
  let off_flags := if p.TunFTsoEcn then off_flags ||| 8 else off_flags
  let off_flags := if p.TunFUso4 then off_flags ||| 32 else off_flags
  let off_flags := if p.TunFUso6 then off_flags ||| 64 else off_flags
  off_flags

/-- The persistence step of `setDeviceOptions` (lines 118 to 127). -/
def setDeviceOptions.persist (k : Kernel) (fd : Nat) (config : Config) (tr : Trace) :
    ErrResult :=
  let value := if config.Persist then 1 else 0
  let r := ioctl k fd Request.TUNSETPERSIST (Argp.imm value) tr
  match r.err with
  | some err =>
    { err := errorsJoin [some err,
        some (GoError.errorString (ascii "ioctl(fd, TUNSETPERSIST, " ++ fmtD value ++ ascii ")"))]
      trace := r.trace }
  | none => { err := r.err, trace := r.trace }

/-- The offload step of `setDeviceOptions` and what follows it (lines 86 to 127). -/
def setDeviceOptions.offload (k : Kernel) (fd : Nat) (config : Config) (tr : Trace) :
    ErrResult :=
  let off_flags := offFlags config.PlatformSpecificParams
  if off_flags ≠ 0 then
    let r := ioctl k fd Request.TUNSETOFFLOAD (Argp.imm off_flags) tr
    match r.err with
    | some err =>
      { err := errorsJoin [some err,
          some (GoError.errorString (ascii "ioctl(fd, TUNSETOFFLOAD, " ++ fmtD off_flags ++ ascii ")"))]
        trace := r.trace }
    | none => setDeviceOptions.persist k fd config r.trace
  else setDeviceOptions.persist k fd config tr

/-- The header-size step of `setDeviceOptions` and what follows it (lines 79 to 127). -/
def setDeviceOptions.vnetHdr (k : Kernel) (fd : Nat) (config : Config) (tr : Trace) :
    ErrResult :=
  if config.PlatformSpecificParams.VnetHdrSize ≠ 0 then
    let vnetHdrSize := config.PlatformSpecificParams.VnetHdrSize
    let r := ioctl k fd Request.TUNSETVNETHDRSZ (Argp.uintPtr vnetHdrSize) tr
    match r.err with
    | some err =>
      { err := errorsJoin [some err,
          some (GoError.errorString (ascii "ioctl(fd, TUNSETVNETHDRSZ, " ++
            fmtD config.PlatformSpecificParams.VnetHdrSize ++ ascii ")"))]
        trace := r.trace }
    | none => setDeviceOptions.offload k fd config r.trace
  else setDeviceOptions.offload k fd config tr

/-- The function `setDeviceOptions`: the ownership step (lines 70 to 77), then
the remaining steps. -/
def setDeviceOptions (k : Kernel) (fd : Nat) (config : Config) (tr : Trace) : ErrResult :=
  match config.Permissions with
  | some perm =>
    let r := ioctl k fd Request.TUNSETOWNER (Argp.imm perm.Owner) tr
    match r.err with
    | some err =>
      { err := errorsJoin [some err,
          some (GoError.errorString (ascii "ioctl(fd, TUNSETOWNER, " ++ fmtD perm.Owner ++ ascii ")"))]
        trace := r.trace }
    | none =>
      let r := ioctl k fd Request.TUNSETGROUP (Argp.imm perm.Group) r.trace
      match r.err with
      | some err =>
        { err := errorsJoin [some err,
            some (GoError.errorString (ascii "ioctl(fd, TUNSETGROUP, " ++ fmtD perm.Group ++ ascii ")"))]
          trace := r.trace }
      | none => setDeviceOptions.vnetHdr k fd config r.trace
  | none => setDeviceOptions.vnetHdr k fd config tr

/-- The creation flags `setupFd` assembles (lines 34 to 42). -/
def setupFd.flags (config : Config) : Nat :=
  let flags := cIFFNOPI
  let flags := if config.DeviceType = TUN then flags ||| cIFFTUN else flags ||| cIFFTAP
  let flags := if config.PlatformSpecificParams.MultiQueue then flags ||| cIFFMULTIQUEUE else flags
  flags

/-- The function `setupFd`. -/
def setupFd (k : Kernel) (config : Config) (fd : Nat) (tr : Trace) : NameResult :=
  let flags := setupFd.flags config
  let c := createInterface k fd config.Name flags tr
  match c.err with
  | some err => { name := [], err := some err, trace := c.trace }
  | none =>
    let o := setDeviceOptions k fd config c.trace
    match o.err with
    | some err => { name := [], err := some err, trace := o.trace }
    | none => { name := c.name, err := none, trace := o.trace }

/-! ## The request plan

The straight-line code of `setDeviceOptions` is compared with a list of steps
run in order up to the first failure. -/

/-- One planned request: its code, its argument and the text of the error
description used when it fails. -/
structure Step where
  request : Request
  argp : Argp
  descr : GoString

/-- Runs the planned requests in order and stops at the first one the kernel
refuses, whose error is joined with its description. -/
def runSteps (k : Kernel) (fd : Nat) : List Step → Trace → ErrResult
  | [], tr => { err := none, trace := tr }
  | s :: rest, tr =>
    let r := ioctl k fd s.request s.argp tr
    match r.err with
    | some err =>
      { err := errorsJoin [some err, some (GoError.errorString s.descr)], trace := r.trace }
    | none => runSteps k fd rest r.trace

/-- The ownership requests of a configuration: owner, then group, when
`Permissions` is present. -/
def ownerSteps (config : Config) : List Step :=
  match config.Permissions with
  | some perm =>
    [⟨Request.TUNSETOWNER, Argp.imm perm.Owner,
        ascii "ioctl(fd, TUNSETOWNER, " ++ fmtD perm.Owner ++ ascii ")"⟩,
      ⟨Request.TUNSETGROUP, Argp.imm perm.Group,
        ascii "ioctl(fd, TUNSETGROUP, " ++ fmtD perm.Group ++ ascii ")"⟩]
  | none => []

/-- The header-size request of a configuration, when the size is not zero. -/
def vnetHdrSteps (config : Config) : List Step :=
  if config.PlatformSpecificParams.VnetHdrSize ≠ 0 then
    [⟨Request.TUNSETVNETHDRSZ, Argp.uintPtr config.PlatformSpecificParams.VnetHdrSize,
        ascii "ioctl(fd, TUNSETVNETHDRSZ, " ++ fmtD config.PlatformSpecificParams.VnetHdrSize ++
          ascii ")"⟩]
  else []

/-- The offload request of a configuration, when the mask is not zero. -/
def offloadSteps (config : Config) : List Step :=
  if offFlags config.PlatformSpecificParams ≠ 0 then
    [⟨Request.TUNSETOFFLOAD, Argp.imm (offFlags config.PlatformSpecificParams),
        ascii "ioctl(fd, TUNSETOFFLOAD, " ++ fmtD (offFlags config.PlatformSpecificParams) ++
          ascii ")"⟩]
  else []

/-- The persistence request of a configuration. -/
def persistStep (config : Config) : Step :=
  ⟨Request.TUNSETPERSIST, Argp.imm (if config.Persist then 1 else 0),
    ascii "ioctl(fd, TUNSETPERSIST, " ++ fmtD (if config.Persist then 1 else 0) ++ ascii ")"⟩

/-- The requests `setDeviceOptions` issues when none fails, in order. -/
def optionSteps (config : Config) : List Step :=
  ownerSteps config ++ vnetHdrSteps config ++ offloadSteps config ++ [persistStep config]

/-- The creation request of `setupFd`. -/
def creationStep (config : Config) : Step :=
  ⟨Request.TUNSETIFF, Argp.ifReqPtr (createInterface.request config.Name (setupFd.flags config)),
    ascii "ioctl(fd, TUNSETIFF, " ++ config.Name ++ ascii ")"⟩

/-- The requests `setupFd` issues when none fails, in order. -/
def setupSteps (config : Config) : List Step :=
  creationStep config :: optionSteps config

/-- The events of planned requests that all succeeded. -/
def okEvents (fd : Nat) (steps : List Step) : Trace :=
  steps.map fun s => ⟨fd, s.request, s.argp, 0⟩

/-- The requests a run added to the trace it started from. -/
def issued (tr : Trace) (out : Trace) : Trace :=
  out.drop tr.length

/-- The description the error of a failing request is expected to carry: the
name of the request and its attempted argument (the requested name, the owner
id, the group id, the header size, the offload mask, the persistence value). -/
def requestDescription (config : Config) : Request → GoString
  | Request.TUNSETIFF => ascii "ioctl(fd, TUNSETIFF, " ++ config.Name ++ ascii ")"
  | Request.TUNSETOWNER =>
    match config.Permissions with
    | some perm => ascii "ioctl(fd, TUNSETOWNER, " ++ fmtD perm.Owner ++ ascii ")"
    | none => []
  | Request.TUNSETGROUP =>
    match config.Permissions with
    | some perm => ascii "ioctl(fd, TUNSETGROUP, " ++ fmtD perm.Group ++ ascii ")"
    | none => []
  | Request.TUNSETVNETHDRSZ =>
    ascii "ioctl(fd, TUNSETVNETHDRSZ, " ++ fmtD config.PlatformSpecificParams.VnetHdrSize ++
      ascii ")"
  | Request.TUNSETOFFLOAD =>
    ascii "ioctl(fd, TUNSETOFFLOAD, " ++ fmtD (offFlags config.PlatformSpecificParams) ++ ascii ")"
  | Request.TUNSETPERSIST =>
    ascii "ioctl(fd, TUNSETPERSIST, " ++ fmtD (if config.Persist then 1 else 0) ++ ascii ")"

/-- The offload mask in the words of the specification: the bitwise OR of the
fixed values 1, 2, 4, 8, 32, 64 of the toggles that are true. -/
def offloadMaskSpec (p : PlatformSpecificParams) : Nat :=
  (([(p.TunFCSum, 1), (p.TunFTso4, 2), (p.TunFTso6, 4), (p.TunFTsoEcn, 8), (p.TunFUso4, 32),
    (p.TunFUso6, 64)].filter fun t => t.1).map fun t => t.2).foldl (fun acc v => acc ||| v) 0

/-- The all-success sequence of request codes in the words of the
specification: TUNSETIFF, then TUNSETOWNER and TUNSETGROUP if `Permissions` is
present, then TUNSETVNETHDRSZ if `VnetHdrSize` is not zero, then TUNSETOFFLOAD if
the offload mask is not zero, then TUNSETPERSIST. -/
def allSuccessCodes (config : Config) : List Request :=
  [Request.TUNSETIFF] ++
    (if config.Permissions.isSome then [Request.TUNSETOWNER, Request.TUNSETGROUP] else []) ++
    (if config.PlatformSpecificParams.VnetHdrSize ≠ 0 then [Request.TUNSETVNETHDRSZ] else []) ++
    (if offFlags config.PlatformSpecificParams ≠ 0 then [Request.TUNSETOFFLOAD] else []) ++
    [Request.TUNSETPERSIST]

/-! ## Concrete kernels -/

/-- A kernel that refuses the requests with code `r`, answering the error
number `n`, and accepts every other request, leaving the request structure as it
was handed in. -/
def refusing (r : Request) (n : Nat) : Kernel := fun _ _ rq a =>
  match a with
  | Argp.ifReqPtr req => ⟨if rq = r then n else 0, req⟩
  | _ => ⟨if rq = r then n else 0, ifReq.zero⟩

/-- The configuration of the first scenario: a TUN device with no name and
nothing else set. -/
def tunConfig : Config :=
  { DeviceType := TUN
    Name := []
    Permissions := none
    PlatformSpecificParams :=
      { MultiQueue := false, VnetHdrSize := 0, TunFCSum := false, TunFTso4 := false,
        TunFTso6 := false, TunFTsoEcn := false, TunFUso4 := false, TunFUso6 := false }
    Persist := false }

/-- The configuration of the second scenario: a TAP device named `mytap0`,
multi-queue, TSO over IPv4, persistent. -/
def tapConfig : Config :=
  { DeviceType := TAP
    Name := [109, 121, 116, 97, 112, 48]
    Permissions := none
    PlatformSpecificParams :=
      { MultiQueue := true, VnetHdrSize := 0, TunFCSum := false, TunFTso4 := true,
        TunFTso6 := false, TunFTsoEcn := false, TunFUso4 := false, TunFUso6 := false }
    Persist := true }

/-- A configuration in which every optional step fires: owner 1000, group 100,
header size 12, checksum and TSO over IPv4 offload, persistent. -/
def fullConfig : Config :=
  { DeviceType := TUN
    Name := [116, 117, 110, 55]
    Permissions := some { Owner := 1000, Group := 100 }
    PlatformSpecificParams :=
      { MultiQueue := false, VnetHdrSize := 12, TunFCSum := true, TunFTso4 := true,
        TunFTso6 := false, TunFTsoEcn := false, TunFUso4 := false, TunFUso6 := false }
    Persist := true }


/-- A kernel that accepts every request and leaves the request structure as it
was handed in. -/
def echoKernel : Kernel := fun _ _ _ a =>
  match a with
  | Argp.ifReqPtr r => ⟨0, r⟩
  | _ => ⟨0, ifReq.zero⟩

/-- A kernel that accepts every request and answers a name field whose first
byte is zero: a zero byte, the letter `a`, and fourteen zero bytes. -/
def leadingZeroKernel : Kernel := fun _ _ _ _ =>
  ⟨0, { ifReq.zero with Name := ⟨[0, 97, 0, 0, 0, 0, 0, 0, 0, 0, 0, 0, 0, 0, 0, 0], rfl⟩ }⟩

/-- A kernel that accepts every request and answers the name field `tun0`
followed by twelve zero bytes. -/
def tun0Kernel : Kernel := fun _ _ _ _ =>
  ⟨0, { ifReq.zero with
    Name := ⟨[116, 117, 110, 48, 0, 0, 0, 0, 0, 0, 0, 0, 0, 0, 0, 0], rfl⟩ }⟩

/-- An issued request without its file descriptor: the code, the argument and
the error number. -/
def Event.stripFd (e : Event) : Request × Argp × Nat :=
  (e.request, e.argp, e.errno)

/-- A kernel with state per descriptor: it accepts every creation request, and
accepts another request only on a descriptor on which a creation request was
issued before, answering the error number 9 otherwise.  The request structure
is left as it was handed in. -/
def perFdKernel : Kernel := fun t fd rq a =>
  let errno :=
    if rq = Request.TUNSETIFF ∨
        t.any (fun e => decide (e.fd = fd) && decide (e.request = Request.TUNSETIFF)) = true
    then 0 else 9
  match a with
  | Argp.ifReqPtr req => ⟨errno, req⟩
  | _ => ⟨errno, ifReq.zero⟩

/-! ## The plan is what the code does -/

theorem persist_eq_runSteps (k : Kernel) (fd : Nat) (config : Config) (tr : Trace) :
    setDeviceOptions.persist k fd config tr = runSteps k fd [persistStep config] tr := by
  simp only [setDeviceOptions.persist, runSteps, persistStep]
  split <;> simp_all

theorem offload_eq_runSteps (k : Kernel) (fd : Nat) (config : Config) (tr : Trace) :
    setDeviceOptions.offload k fd config tr =
      runSteps k fd (offloadSteps config ++ [persistStep config]) tr := by
  simp only [setDeviceOptions.offload, offloadSteps]
  split
  · simp only [List.cons_append, List.nil_append, runSteps, persist_eq_runSteps]
  · simp only [List.nil_append, persist_eq_runSteps]

theorem vnetHdr_eq_runSteps (k : Kernel) (fd : Nat) (config : Config) (tr : Trace) :
    setDeviceOptions.vnetHdr k fd config tr =
      runSteps k fd (vnetHdrSteps config ++ offloadSteps config ++ [persistStep config]) tr := by
  simp only [setDeviceOptions.vnetHdr, vnetHdrSteps]
  split
  · simp only [List.cons_append, List.nil_append, runSteps, offload_eq_runSteps, List.append_eq]
  · simp only [List.nil_append, offload_eq_runSteps]

theorem setDeviceOptions_eq_runSteps (k : Kernel) (fd : Nat) (config : Config) (tr : Trace) :
    setDeviceOptions k fd config tr = runSteps k fd (optionSteps config) tr := by
  simp only [setDeviceOptions, optionSteps, ownerSteps]
  split
  · simp only [List.cons_append, List.nil_append, runSteps, vnetHdr_eq_runSteps,
      List.append_assoc, List.append_eq]
  · simp only [List.nil_append, vnetHdr_eq_runSteps]

/-! ## What a run of the plan looks like -/

theorem errorsJoin_pair (e₁ e₂ : GoError) :
    errorsJoin [some e₁, some e₂] = some (GoError.joinError [e₁, e₂]) := rfl

theorem ioctl_trace (k : Kernel) (fd : Nat) (rq : Request) (a : Argp) (tr : Trace) :
    (ioctl k fd rq a tr).trace = tr ++ [⟨fd, rq, a, (k tr fd rq a).errno⟩] := rfl

theorem ioctl_req (k : Kernel) (fd : Nat) (rq : Request) (a : Argp) (tr : Trace) :
    (ioctl k fd rq a tr).req = (k tr fd rq a).req := rfl

theorem ioctl_err_of_zero (k : Kernel) (fd : Nat) (rq : Request) (a : Argp) (tr : Trace)
    (h : (k tr fd rq a).errno = 0) : (ioctl k fd rq a tr).err = none := by
  simp [ioctl, h]

theorem ioctl_err_of_ne_zero (k : Kernel) (fd : Nat) (rq : Request) (a : Argp) (tr : Trace)
    (h : (k tr fd rq a).errno ≠ 0) :
    (ioctl k fd rq a tr).err = some (GoError.SyscallError "ioctl" (k tr fd rq a).errno) := by
  simp [ioctl, h]

/-- A run of planned requests either succeeds at every request, or stops at the
first refused one with the joined error of that request. -/
theorem runSteps_spec (k : Kernel) (fd : Nat) (steps : List Step) (tr : Trace) :
    ((runSteps k fd steps tr).err = none ∧
      (runSteps k fd steps tr).trace = tr ++ okEvents fd steps) ∨
    ∃ pre s post n, steps = pre ++ s :: post ∧ n ≠ 0 ∧
      n = (k (tr ++ okEvents fd pre) fd s.request s.argp).errno ∧
      (runSteps k fd steps tr).trace = tr ++ (okEvents fd pre ++ [⟨fd, s.request, s.argp, n⟩]) ∧
      (runSteps k fd steps tr).err =
        some (GoError.joinError [GoError.SyscallError "ioctl" n, GoError.errorString s.descr]) := by
  induction steps generalizing tr with
  | nil => left; simp [runSteps, okEvents]
  | cons s rest ih =>
    by_cases h : (k tr fd s.request s.argp).errno = 0
    · have he := ioctl_err_of_zero k fd s.request s.argp tr h
      have hrun : runSteps k fd (s :: rest) tr =
          runSteps k fd rest (tr ++ [⟨fd, s.request, s.argp, 0⟩]) := by
        simp only [runSteps, he, ioctl_trace, h]
      rcases ih (tr ++ [⟨fd, s.request, s.argp, 0⟩]) with ⟨h1, h2⟩ | ⟨pre, s1, post, n, h1, h2, h3, h4, h5⟩
      · left
        rw [hrun]
        refine ⟨h1, ?_⟩
        rw [h2]
        simp [okEvents]
      · right
        refine ⟨s :: pre, s1, post, n, by simp [h1], h2, ?_, ?_, ?_⟩
        · rw [h3]; simp [okEvents]
        · rw [hrun, h4]; simp [okEvents]
        · rw [hrun, h5]
    · right
      have he := ioctl_err_of_ne_zero k fd s.request s.argp tr h
      refine ⟨[], s, rest, _, by simp, h, ?_, ?_, ?_⟩
      · simp [okEvents]
      · simp only [runSteps, he, ioctl_trace, okEvents, List.map_nil, List.nil_append]
      · simp only [runSteps, he, errorsJoin_pair]

/-- The error and the trace of `setupFd` are those of the plan that starts with
the creation request. -/
theorem setupFd_eq_runSteps (k : Kernel) (config : Config) (fd : Nat) (tr : Trace) :
    (setupFd k config fd tr).err = (runSteps k fd (setupSteps config) tr).err ∧
    (setupFd k config fd tr).trace = (runSteps k fd (setupSteps config) tr).trace := by
  simp only [setupFd, createInterface, setupSteps, creationStep, runSteps,
    setDeviceOptions_eq_runSteps]
  cases h : (ioctl k fd Request.TUNSETIFF
      (Argp.ifReqPtr (createInterface.request config.Name (setupFd.flags config))) tr).err with
  | some e => simp [errorsJoin_pair]
  | none =>
    simp only
    cases h2 : (runSteps k fd (optionSteps config) (ioctl k fd Request.TUNSETIFF
      (Argp.ifReqPtr (createInterface.request config.Name (setupFd.flags config))) tr).trace).err with
    | some e => simp
    | none => simp

/-- The name `setupFd` returns: empty with an error, and otherwise the echoed
name field stripped of zero bytes. -/
theorem setupFd_name (k : Kernel) (config : Config) (fd : Nat) (tr : Trace) :
    ((setupFd k config fd tr).err ≠ none ∧ (setupFd k config fd tr).name = []) ∨
    ((setupFd k config fd tr).err = none ∧
      (createInterface k fd config.Name (setupFd.flags config) tr).err = none ∧
      (setupFd k config fd tr).name =
        (createInterface k fd config.Name (setupFd.flags config) tr).name ∧
      (setupFd k config fd tr).name = stringsTrim (k tr fd Request.TUNSETIFF
        (Argp.ifReqPtr (createInterface.request config.Name (setupFd.flags config)))).req.Name.val 0) := by
  simp only [setupFd, createInterface]
  cases h : (ioctl k fd Request.TUNSETIFF
      (Argp.ifReqPtr (createInterface.request config.Name (setupFd.flags config))) tr).err with
  | some e => simp [errorsJoin_pair]
  | none =>
    simp only
    cases h2 : (setDeviceOptions k fd config (ioctl k fd Request.TUNSETIFF
      (Argp.ifReqPtr (createInterface.request config.Name (setupFd.flags config))) tr).trace).err with
    | some e => simp
    | none => simp [ioctl_req]

theorem issued_append (tr new : Trace) : issued tr (tr ++ new) = new := by
  simp [issued]

/-- A run of planned requests only appends to the trace. -/
theorem runSteps_trace_extends (k : Kernel) (fd : Nat) (steps : List Step) (tr : Trace) :
    ∃ new, (runSteps k fd steps tr).trace = tr ++ new := by
  rcases runSteps_spec k fd steps tr with ⟨_, h⟩ | ⟨pre, s, post, n, _, _, _, h, _⟩
  · exact ⟨_, h⟩
  · exact ⟨_, h⟩

/-- The first request of `setupFd` is the creation request, carrying the
request structure built from the configured name and the assembled flags. -/
theorem setupFd_trace_head (k : Kernel) (config : Config) (fd : Nat) (tr : Trace) :
    ∃ rest, (setupFd k config fd tr).trace =
      tr ++ ⟨fd, Request.TUNSETIFF,
        Argp.ifReqPtr (createInterface.request config.Name (setupFd.flags config)),
        (k tr fd Request.TUNSETIFF
          (Argp.ifReqPtr (createInterface.request config.Name (setupFd.flags config)))).errno⟩ ::
        rest := by
  rw [(setupFd_eq_runSteps k config fd tr).2]
  simp only [setupSteps, creationStep, runSteps]
  split
  · exact ⟨[], by simp [ioctl_trace]⟩
  · obtain ⟨new, h⟩ := runSteps_trace_extends k fd (optionSteps config)
      (ioctl k fd Request.TUNSETIFF
        (Argp.ifReqPtr (createInterface.request config.Name (setupFd.flags config))) tr).trace
    exact ⟨new, by rw [h]; simp [ioctl_trace]⟩

/-- The creation flags take one of four values, chosen by the device type and
the multi-queue toggle. -/
theorem setupFd_flags_value (config : Config) :
    setupFd.flags config =
      if config.DeviceType = TUN then
        (if config.PlatformSpecificParams.MultiQueue then 0x1101 else 0x1001)
      else (if config.PlatformSpecificParams.MultiQueue then 0x1102 else 0x1002) := by
  unfold setupFd.flags
  by_cases h : config.DeviceType = TUN <;>
    cases hm : config.PlatformSpecificParams.MultiQueue <;>
    simp [h, cIFFNOPI, cIFFTUN, cIFFTAP, cIFFMULTIQUEUE]

/-- C1: for every configuration, the creation request `setupFd` issues carries the
flags it assembled, and that value has exactly one of the TUN and TAP bits (TUN
when the device type is TUN, TAP when it is TAP), always the NOPI bit, and the
MULTIQUEUE bit exactly when multi-queue is requested. -/
theorem setupFd_creation_flags (k : Kernel) (config : Config) (fd : Nat) (tr : Trace) :
    ∃ req errno rest,
      (setupFd k config fd tr).trace =
        tr ++ ⟨fd, Request.TUNSETIFF, Argp.ifReqPtr req, errno⟩ :: rest ∧
      req.Flags = setupFd.flags config ∧
      Xor' (req.Flags &&& cIFFTUN ≠ 0) (req.Flags &&& cIFFTAP ≠ 0) ∧
      (req.Flags &&& cIFFTUN ≠ 0 ↔ config.DeviceType = TUN) ∧
      (config.DeviceType = TAP → req.Flags &&& cIFFTAP ≠ 0) ∧
      req.Flags &&& cIFFNOPI = cIFFNOPI ∧
      (req.Flags &&& cIFFMULTIQUEUE ≠ 0 ↔ config.PlatformSpecificParams.MultiQueue = true) := by
  obtain ⟨rest, h⟩ := setupFd_trace_head k config fd tr
  refine ⟨_, _, rest, h, rfl, ?_⟩
  have hv := setupFd_flags_value config
  have hreq : (createInterface.request config.Name (setupFd.flags config)).Flags =
      setupFd.flags config := rfl
  rw [hreq, hv]
  by_cases hd : config.DeviceType = TUN
  · have hne : ¬ config.DeviceType = TAP := by rw [hd]; decide
    cases hm : config.PlatformSpecificParams.MultiQueue <;>
      simp [hd, hne, Xor', cIFFNOPI, cIFFTUN, cIFFTAP, cIFFMULTIQUEUE] <;> decide
  · cases hm : config.PlatformSpecificParams.MultiQueue <;>
      simp [hd, Xor', cIFFNOPI, cIFFTUN, cIFFTAP, cIFFMULTIQUEUE] <;> decide

/-! ## The name field -/

theorem copy_length (dst : List Byte) (src : GoString) : (copy dst src).length = dst.length := by
  simp only [copy, List.length_append, List.length_take, List.length_drop]
  omega

/-- The name field of the creation request: the first 16 bytes of the name,
then zero bytes up to 16. -/
theorem request_name (ifName : GoString) (flags : Nat) :
    (createInterface.request ifName flags).Name.val =
      ifName.take 16 ++ List.replicate (16 - min ifName.length 16) 0 := by
  simp only [createInterface.request, copy, ifReq.zero, List.length_replicate,
    List.drop_replicate, Nat.min_comm ifName.length 16]

theorem trimLeftByte_replicate_append (m : Nat) (c : Byte) (s : GoString) :
    trimLeftByte (List.replicate m c ++ s) c = trimLeftByte s c := by
  induction m with
  | zero => simp
  | succ m ih => simp [List.replicate_succ, trimLeftByte, ih]

theorem trimRightByte_append_replicate (m : Nat) (c : Byte) (s : GoString) :
    trimRightByte (s ++ List.replicate m c) c = trimRightByte s c := by
  simp [trimRightByte, trimLeftByte_replicate_append]

theorem trimLeftByte_of_head (s : GoString) (c : Byte) (h : s.head? ≠ some c) :
    trimLeftByte s c = s := by
  cases s with
  | nil => rfl
  | cons b s =>
    have hb : b ≠ c := by simpa using h
    simp [trimLeftByte, hb]

theorem trimRightByte_of_getLast (s : GoString) (c : Byte) (h : s.getLast? ≠ some c) :
    trimRightByte s c = s := by
  have h2 : s.reverse.head? ≠ some c := by simpa [List.head?_reverse] using h
  simp [trimRightByte, trimLeftByte_of_head _ _ h2]

theorem stringsTrim_of_ends (s : GoString) (c : Byte) (h₁ : s.head? ≠ some c)
    (h₂ : s.getLast? ≠ some c) : stringsTrim s c = s := by
  simp [stringsTrim, trimRightByte_of_getLast _ _ h₂, trimLeftByte_of_head _ _ h₁]

/-- What `trimLeftByte` removes is a run of the byte, and what is left does not
start with it. -/
theorem trimLeftByte_spec (s : GoString) (c : Byte) :
    ∃ a, s = List.replicate a c ++ trimLeftByte s c ∧ (trimLeftByte s c).head? ≠ some c := by
  induction s with
  | nil => exact ⟨0, by simp [trimLeftByte]⟩
  | cons b s ih =>
    by_cases hb : b = c
    · obtain ⟨a, h1, h2⟩ := ih
      refine ⟨a + 1, ?_, ?_⟩
      · simp only [trimLeftByte, hb, if_true, List.replicate_succ, List.cons_append]
        rw [← h1]
      · simpa [trimLeftByte, hb] using h2
    · exact ⟨0, by simp [trimLeftByte, hb], by simp [trimLeftByte, hb]⟩

/-- What `trimRightByte` removes is a run of the byte, and what is left does not
end with it. -/
theorem trimRightByte_spec (s : GoString) (c : Byte) :
    ∃ b, s = trimRightByte s c ++ List.replicate b c ∧ (trimRightByte s c).getLast? ≠ some c := by
  obtain ⟨b, h1, h2⟩ := trimLeftByte_spec s.reverse c
  refine ⟨b, ?_, ?_⟩
  · have := congrArg List.reverse h1
    simpa [trimRightByte] using this
  · simpa [trimRightByte, List.getLast?_reverse] using h2

theorem trimLeftByte_getLast (s : GoString) (c : Byte) (h : s.getLast? ≠ some c) :
    (trimLeftByte s c).getLast? ≠ some c := by
  induction s with
  | nil => simp [trimLeftByte]
  | cons b s ih =>
    by_cases hb : b = c
    · simp only [trimLeftByte, hb, if_true]
      apply ih
      cases s with
      | nil => simp
      | cons d s => simpa [List.getLast?_cons_cons] using h
    · simpa [trimLeftByte, hb] using h

/-- `strings.Trim` with a one-byte cutset removes a run of the byte at each end
and nothing else; what is left neither starts nor ends with the byte. -/
theorem stringsTrim_spec (s : GoString) (c : Byte) :
    ∃ a b, s = List.replicate a c ++ stringsTrim s c ++ List.replicate b c ∧
      (stringsTrim s c).head? ≠ some c ∧ (stringsTrim s c).getLast? ≠ some c := by
  obtain ⟨b, h1, h2⟩ := trimRightByte_spec s c
  obtain ⟨a, h3, h4⟩ := trimLeftByte_spec (trimRightByte s c) c
  refine ⟨a, b, ?_, h4, trimLeftByte_getLast _ _ h2⟩
  simp only [stringsTrim]
  rw [← h3, ← h1]

/-- The outcome of `createInterface` when the kernel accepts the request: no
error, one more request in the trace, and the echoed name field stripped of zero
bytes at both ends. -/
theorem createInterface_ok (k : Kernel) (fd : Nat) (ifName : GoString) (flags : Nat) (tr : Trace)
    (hok : (k tr fd Request.TUNSETIFF
      (Argp.ifReqPtr (createInterface.request ifName flags))).errno = 0) :
    (createInterface k fd ifName flags tr).err = none ∧
    (createInterface k fd ifName flags tr).name = stringsTrim (k tr fd Request.TUNSETIFF
      (Argp.ifReqPtr (createInterface.request ifName flags))).req.Name.val 0 := by
  simp [createInterface, ioctl, hok]

/-- The one request `createInterface` issues, whatever the kernel answers. -/
theorem createInterface_trace (k : Kernel) (fd : Nat) (ifName : GoString) (flags : Nat)
    (tr : Trace) :
    (createInterface k fd ifName flags tr).trace =
      tr ++ [⟨fd, Request.TUNSETIFF, Argp.ifReqPtr (createInterface.request ifName flags),
        (k tr fd Request.TUNSETIFF
          (Argp.ifReqPtr (createInterface.request ifName flags))).errno⟩] := by
  simp only [createInterface]
  split <;> rfl

/-- C2, counterexample: the two-byte name `a\x00` is shorter than 16 bytes, the
kernel accepts the request and leaves the name field unchanged, and the decoded
name is `a`, not the name that was encoded. -/
theorem createInterface_roundtrip_counterexample :
    ([97, 0] : GoString).length < 16 ∧
    (echoKernel [] 3 Request.TUNSETIFF
      (Argp.ifReqPtr (createInterface.request [97, 0] 0x1001))).errno = 0 ∧
    (echoKernel [] 3 Request.TUNSETIFF
      (Argp.ifReqPtr (createInterface.request [97, 0] 0x1001))).req.Name =
        (createInterface.request [97, 0] 0x1001).Name ∧
    (createInterface echoKernel 3 [97, 0] 0x1001 []).name = [97] ∧
    (createInterface echoKernel 3 [97, 0] 0x1001 []).name ≠ [97, 0] := by
  refine ⟨by decide, rfl, rfl, by decide, by decide⟩

/-- C2, amended: when the creation request succeeds and the kernel leaves the
name field unchanged, the decoded name is the first `min(len, 16)` bytes of the
name stripped of zero bytes at both ends; so when those bytes neither start nor
end with a zero byte, a name shorter than 16 bytes comes back unchanged and a
longer one comes back as its first 16 bytes. -/
theorem createInterface_roundtrip (k : Kernel) (fd : Nat) (N : GoString) (flags : Nat)
    (tr : Trace)
    (hok : (k tr fd Request.TUNSETIFF
      (Argp.ifReqPtr (createInterface.request N flags))).errno = 0)
    (hsame : (k tr fd Request.TUNSETIFF
      (Argp.ifReqPtr (createInterface.request N flags))).req.Name =
        (createInterface.request N flags).Name) :
    (createInterface k fd N flags tr).err = none ∧
    (createInterface k fd N flags tr).name = stringsTrim (N.take 16) 0 ∧
    ((N.take 16).head? ≠ some 0 → (N.take 16).getLast? ≠ some 0 →
      (N.length < 16 → (createInterface k fd N flags tr).name = N) ∧
      (16 ≤ N.length → (createInterface k fd N flags tr).name = N.take 16)) := by
  obtain ⟨h1, h2⟩ := createInterface_ok k fd N flags tr hok
  have h3 : (createInterface k fd N flags tr).name = stringsTrim (N.take 16) 0 := by
    rw [h2, hsame, request_name]
    simp only [stringsTrim, trimRightByte_append_replicate]
  refine ⟨h1, h3, fun hh hl => ?_⟩
  have h4 := stringsTrim_of_ends _ _ hh hl
  refine ⟨fun hlt => ?_, fun _ => by rw [h3, h4]⟩
  rw [h3, h4]
  exact List.take_of_length_le (by omega)

/-- C2, witness: the name `tun0` comes back unchanged from a kernel that accepts
the request and leaves the name field as it was. -/
theorem createInterface_roundtrip_witness :
    (createInterface echoKernel 3 [116, 117, 110, 48] 0x1001 []).name = [116, 117, 110, 48] :=
  ((createInterface_roundtrip echoKernel 3 [116, 117, 110, 48] 0x1001 [] rfl rfl).2.2
    (by decide) (by decide)).1 (by decide)

/-- C3, counterexample: for the echoed name field `\x00 a \x00 ... \x00` of a
successful creation request the returned name is `a`, while trimming the zero
bytes from the end only gives `\x00 a`. -/
theorem createInterface_trim_counterexample :
    (leadingZeroKernel [] 3 Request.TUNSETIFF
      (Argp.ifReqPtr (createInterface.request [] 0x1001))).errno = 0 ∧
    (leadingZeroKernel [] 3 Request.TUNSETIFF
      (Argp.ifReqPtr (createInterface.request [] 0x1001))).req.Name.val =
        [0, 97, 0, 0, 0, 0, 0, 0, 0, 0, 0, 0, 0, 0, 0, 0] ∧
    (createInterface leadingZeroKernel 3 [] 0x1001 []).err = none ∧
    (createInterface leadingZeroKernel 3 [] 0x1001 []).name = [97] ∧
    trimRightByte [0, 97, 0, 0, 0, 0, 0, 0, 0, 0, 0, 0, 0, 0, 0, 0] 0 = [0, 97] ∧
    (createInterface leadingZeroKernel 3 [] 0x1001 []).name ≠
      trimRightByte [0, 97, 0, 0, 0, 0, 0, 0, 0, 0, 0, 0, 0, 0, 0, 0] 0 := by
  refine ⟨rfl, rfl, rfl, by decide, by decide, by decide⟩

/-- C3, amended: for every name field echoed back by a successful creation
request, the name `createInterface` returns is that field with the zero bytes
trimmed from both ends and nothing else removed: the field is a run of zero
bytes, the returned name, and a run of zero bytes, and the returned name neither
starts nor ends with a zero byte. -/
theorem createInterface_trim (k : Kernel) (fd : Nat) (ifName : GoString) (flags : Nat)
    (tr : Trace)
    (hok : (k tr fd Request.TUNSETIFF
      (Argp.ifReqPtr (createInterface.request ifName flags))).errno = 0) :
    (createInterface k fd ifName flags tr).err = none ∧
    ∃ a b, (k tr fd Request.TUNSETIFF
        (Argp.ifReqPtr (createInterface.request ifName flags))).req.Name.val =
        List.replicate a 0 ++ (createInterface k fd ifName flags tr).name ++ List.replicate b 0 ∧
      (createInterface k fd ifName flags tr).name.head? ≠ some 0 ∧
      (createInterface k fd ifName flags tr).name.getLast? ≠ some 0 := by
  obtain ⟨h1, h2⟩ := createInterface_ok k fd ifName flags tr hok
  refine ⟨h1, ?_⟩
  rw [h2]
  exact stringsTrim_spec _ 0

/-- C3, witness: the field with a leading zero byte decomposes as one zero
byte, the returned name `a`, and fourteen zero bytes. -/
theorem createInterface_trim_witness :
    (createInterface leadingZeroKernel 3 [] 0x1001 []).err = none ∧
    ∃ a b, ([0, 97, 0, 0, 0, 0, 0, 0, 0, 0, 0, 0, 0, 0, 0, 0] : List Byte) =
        List.replicate a 0 ++ (createInterface leadingZeroKernel 3 [] 0x1001 []).name ++
          List.replicate b 0 ∧
      (createInterface leadingZeroKernel 3 [] 0x1001 []).name.head? ≠ some 0 ∧
      (createInterface leadingZeroKernel 3 [] 0x1001 []).name.getLast? ≠ some 0 :=
  createInterface_trim leadingZeroKernel 3 [] 0x1001 [] rfl

/-! ## The layout of the creation request -/

theorem uint16_roundtrip (littleEndian : Bool) (v : Nat) (hv : v < 65536) :
    uint16OfBytes littleEndian (uint16Bytes littleEndian v) = v := by
  cases littleEndian <;>
    simp only [uint16Bytes, uint16OfBytes, if_true, Bool.false_eq_true, if_false, Fin.ofNat,
      Nat.mod_mod] <;>
    omega

theorem uint16Bytes_length (littleEndian : Bool) (v : Nat) :
    (uint16Bytes littleEndian v).length = 2 := by
  cases littleEndian <;> rfl

/-- C4: for every name and every 16-bit flags value, in either byte order, the
buffer `createInterface` submits is 0x28 bytes long; its first 16 bytes are the
first `min(len(name), 16)` bytes of the name followed by zero bytes up to 16, the
two bytes at offset 0x10 hold the flags, and the 0x16 bytes from offset 0x12 are
all zero. -/
theorem createInterface_request_layout (k : Kernel) (fd : Nat) (ifName : GoString)
    (flags : Nat) (tr : Trace) (littleEndian : Bool) (hf : flags < 65536) :
    ∃ req errno,
      (createInterface k fd ifName flags tr).trace =
        tr ++ [⟨fd, Request.TUNSETIFF, Argp.ifReqPtr req, errno⟩] ∧
      (req.bytes littleEndian).length = 0x28 ∧
      (req.bytes littleEndian).take 0x10 =
        ifName.take (min ifName.length 16) ++
          List.replicate (16 - min ifName.length 16) 0 ∧
      uint16OfBytes littleEndian (((req.bytes littleEndian).drop 0x10).take 2) = flags ∧
      (req.bytes littleEndian).drop 0x12 = List.replicate 0x16 0 := by
  refine ⟨_, _, createInterface_trace k fd ifName flags tr, ?_, ?_, ?_, ?_⟩
  · simp [ifReq.bytes, uint16Bytes_length, Subtype.property]
  · have hn := request_name ifName flags
    have hl := (createInterface.request ifName flags).Name.property
    have ht : ifName.take (min ifName.length 16) = ifName.take 16 := by
      rcases Nat.le_total ifName.length 16 with h | h
      · rw [Nat.min_eq_left h, List.take_of_length_le h, List.take_of_length_le (le_refl _)]
      · rw [Nat.min_eq_right h]
    rw [ht, ← hn]
    simp only [ifReq.bytes, List.append_assoc]
    rw [List.take_append_of_le_length (by omega), List.take_of_length_le (by omega)]
  · have hl := (createInterface.request ifName flags).Name.property
    have hfl : (createInterface.request ifName flags).Flags = flags := rfl
    simp only [ifReq.bytes, List.append_assoc]
    rw [List.drop_append_of_le_length (by omega), List.drop_of_length_le (by omega),
      List.nil_append, List.take_append_of_le_length (by rw [uint16Bytes_length]),
      List.take_of_length_le (by rw [uint16Bytes_length]), hfl]
    exact uint16_roundtrip littleEndian flags hf
  · have hl := (createInterface.request ifName flags).Name.property
    have hp : (createInterface.request ifName flags).pad.val = List.replicate 0x16 0 := rfl
    have hu := uint16Bytes_length littleEndian (createInterface.request ifName flags).Flags
    simp only [ifReq.bytes]
    rw [List.drop_append_of_le_length (by simp only [List.length_append]; omega),
      List.drop_of_length_le (by simp only [List.length_append]; omega), List.nil_append, hp]

/-- C4, witness: the little-endian buffer for the name `mytap0` and the flags
0x1102. -/
theorem createInterface_request_layout_witness :
    ∃ req errno,
      (createInterface echoKernel 3 [109, 121, 116, 97, 112, 48] 0x1102 []).trace =
        [] ++ [⟨3, Request.TUNSETIFF, Argp.ifReqPtr req, errno⟩] ∧
      (req.bytes true).length = 0x28 ∧
      (req.bytes true).take 0x10 =
        ([109, 121, 116, 97, 112, 48] : GoString).take
            (min ([109, 121, 116, 97, 112, 48] : GoString).length 16) ++
          List.replicate (16 - min ([109, 121, 116, 97, 112, 48] : GoString).length 16) 0 ∧
      uint16OfBytes true (((req.bytes true).drop 0x10).take 2) = 0x1102 ∧
      (req.bytes true).drop 0x12 = List.replicate 0x16 0 :=
  createInterface_request_layout echoKernel 3 [109, 121, 116, 97, 112, 48] 0x1102 [] true
    (by decide)

/-! ## Runs of `setDeviceOptions` and `setupFd` -/

/-- A plan in two parts runs its second part only when the first succeeded. -/
theorem runSteps_append (k : Kernel) (fd : Nat) (a b : List Step) (tr : Trace) :
    runSteps k fd (a ++ b) tr =
      match (runSteps k fd a tr).err with
      | none => runSteps k fd b (runSteps k fd a tr).trace
      | some _ => runSteps k fd a tr := by
  induction a generalizing tr with
  | nil => simp [runSteps]
  | cons s rest ih =>
    simp only [List.cons_append, runSteps]
    cases h : (ioctl k fd s.request s.argp tr).err with
    | none => simp only [List.append_eq, ih]
    | some e => simp [errorsJoin_pair]

/-- The two ways a run of `setDeviceOptions` ends. -/
theorem setDeviceOptions_spec (k : Kernel) (fd : Nat) (config : Config) (tr : Trace) :
    ((setDeviceOptions k fd config tr).err = none ∧
      issued tr (setDeviceOptions k fd config tr).trace = okEvents fd (optionSteps config)) ∨
    ∃ pre s post n, optionSteps config = pre ++ s :: post ∧ n ≠ 0 ∧
      issued tr (setDeviceOptions k fd config tr).trace =
        okEvents fd pre ++ [⟨fd, s.request, s.argp, n⟩] ∧
      (setDeviceOptions k fd config tr).err =
        some (GoError.joinError [GoError.SyscallError "ioctl" n, GoError.errorString s.descr]) := by
  rw [setDeviceOptions_eq_runSteps]
  rcases runSteps_spec k fd (optionSteps config) tr with ⟨h1, h2⟩ | ⟨pre, s, post, n, h1, h2, _, h4, h5⟩
  · left; exact ⟨h1, by rw [h2, issued_append]⟩
  · right; exact ⟨pre, s, post, n, h1, h2, by rw [h4, issued_append], h5⟩

/-- The two ways a run of `setupFd` ends. -/
theorem setupFd_spec (k : Kernel) (config : Config) (fd : Nat) (tr : Trace) :
    ((setupFd k config fd tr).err = none ∧
      issued tr (setupFd k config fd tr).trace = okEvents fd (setupSteps config)) ∨
    ∃ pre s post n, setupSteps config = pre ++ s :: post ∧ n ≠ 0 ∧
      issued tr (setupFd k config fd tr).trace =
        okEvents fd pre ++ [⟨fd, s.request, s.argp, n⟩] ∧
      (setupFd k config fd tr).err =
        some (GoError.joinError [GoError.SyscallError "ioctl" n, GoError.errorString s.descr]) := by
  rw [(setupFd_eq_runSteps k config fd tr).1, (setupFd_eq_runSteps k config fd tr).2]
  rcases runSteps_spec k fd (setupSteps config) tr with ⟨h1, h2⟩ | ⟨pre, s, post, n, h1, h2, _, h4, h5⟩
  · left; exact ⟨h1, by rw [h2, issued_append]⟩
  · right; exact ⟨pre, s, post, n, h1, h2, by rw [h4, issued_append], h5⟩

theorem okEvents_errno (fd : Nat) (steps : List Step) : ∀ e ∈ okEvents fd steps, e.errno = 0 := by
  intro e he
  simp only [okEvents, List.mem_map] at he
  obtain ⟨s, _, rfl⟩ := he
  rfl

/-- In a trace whose events before the last all succeeded, a failed event is the
last one. -/
theorem failure_is_last (l p q : Trace) (x e : Event) (hl : ∀ y ∈ l, y.errno = 0)
    (he : e.errno ≠ 0) (h : l ++ [x] = p ++ e :: q) : q = [] ∧ e = x ∧ p = l := by
  rcases List.eq_nil_or_concat q with hq | ⟨q1, z, hq⟩
  · subst hq
    have h2 : l ++ [x] = p ++ [e] := h
    obtain ⟨h3, h4⟩ := List.append_inj' h2 rfl
    exact ⟨rfl, by simpa using h4.symm, h3.symm⟩
  · exfalso
    subst hq
    have h2 : l ++ [x] = (p ++ e :: q1) ++ [z] := by simpa using h
    obtain ⟨h3, _⟩ := List.append_inj' h2 rfl
    exact he (hl e (by rw [h3]; simp))

theorem okEvents_filter (fd : Nat) (steps : List Step) (r : Request) :
    (okEvents fd steps).filter (fun e => e.request = r) =
      okEvents fd (steps.filter fun s => s.request = r) := by
  induction steps with
  | nil => rfl
  | cons s rest ih =>
    by_cases h : s.request = r
    · simp only [okEvents, List.map_cons, List.filter_cons, h, decide_True, if_true] at ih ⊢
      rw [ih]
    · simp only [okEvents, List.map_cons, List.filter_cons, h, decide_False] at ih ⊢
      simpa using ih

/-- Every planned request of `setupFd` is described as the specification asks. -/
theorem setupSteps_descr (config : Config) :
    ∀ s ∈ setupSteps config, s.descr = requestDescription config s.request := by
  intro s hs
  simp only [setupSteps, optionSteps, List.mem_cons, List.mem_append, List.not_mem_nil,
    or_false] at hs
  rcases hs with rfl | ((h | h) | h) | rfl
  · rfl
  · unfold ownerSteps at h
    cases hp : config.Permissions with
    | none => simp [hp] at h
    | some perm =>
      simp only [hp, List.mem_cons, List.mem_singleton] at h
      rcases h with rfl | rfl | h
      · simp [requestDescription, hp]
      · simp [requestDescription, hp]
      · simp at h
  · unfold vnetHdrSteps at h
    split at h
    · simp only [List.mem_singleton] at h
      subst h
      rfl
    · simp at h
  · unfold offloadSteps at h
    split at h
    · simp only [List.mem_singleton] at h
      subst h
      rfl
    · simp at h
  · rfl

/-! ## The offload step -/

/-- The mask the code assembles is the bitwise OR the specification describes. -/
theorem offFlags_eq_spec (p : PlatformSpecificParams) : offFlags p = offloadMaskSpec p := by
  rcases p with ⟨mq, v, a, b, c, d, e, f⟩
  cases a <;> cases b <;> cases c <;> cases d <;> cases e <;> cases f <;> rfl

/-- The requests planned before the offload step are ownership and header-size
requests. -/
theorem earlySteps_request (config : Config) :
    ∀ s ∈ ownerSteps config ++ vnetHdrSteps config,
      s.request ∈ [Request.TUNSETOWNER, Request.TUNSETGROUP, Request.TUNSETVNETHDRSZ] := by
  intro s hs
  rcases List.mem_append.1 hs with h | h
  · unfold ownerSteps at h
    cases hp : config.Permissions with
    | none => simp [hp] at h
    | some perm =>
      simp only [hp, List.mem_cons, List.not_mem_nil, or_false] at h
      rcases h with rfl | rfl <;> simp
  · unfold vnetHdrSteps at h
    split at h
    · simp only [List.mem_singleton] at h
      subst h
      simp
    · simp at h

/-- From the offload step on: the offload request is issued once, with the mask
as an immediate value, when the mask is not zero, and not at all when it is. -/
theorem offload_phase (k : Kernel) (fd : Nat) (config : Config) (tr : Trace) :
    ∃ new, (runSteps k fd (offloadSteps config ++ [persistStep config]) tr).trace = tr ++ new ∧
      (offFlags config.PlatformSpecificParams ≠ 0 →
        ∃ n, new.filter (fun e => e.request = Request.TUNSETOFFLOAD) =
          [⟨fd, Request.TUNSETOFFLOAD, Argp.imm (offFlags config.PlatformSpecificParams), n⟩]) ∧
      (offFlags config.PlatformSpecificParams = 0 →
        new.filter (fun e => e.request = Request.TUNSETOFFLOAD) = []) := by
  by_cases h0 : offFlags config.PlatformSpecificParams = 0
  · simp only [offloadSteps, h0, ne_eq, not_true_eq_false, if_false, List.nil_append, runSteps,
      persistStep]
    cases h1 : (ioctl k fd Request.TUNSETPERSIST (Argp.imm (if config.Persist then 1 else 0))
        tr).err with
    | none => exact ⟨_, ioctl_trace _ _ _ _ _, by simp, by simp⟩
    | some e => exact ⟨_, ioctl_trace _ _ _ _ _, by simp, by simp⟩
  · simp only [offloadSteps, h0, ne_eq, not_false_eq_true, if_true, List.cons_append,
      List.nil_append, runSteps, persistStep]
    cases h1 : (ioctl k fd Request.TUNSETOFFLOAD
        (Argp.imm (offFlags config.PlatformSpecificParams)) tr).err with
    | some e => exact ⟨_, ioctl_trace _ _ _ _ _, by simp, by simp [h0]⟩
    | none =>
      simp only
      cases h2 : (ioctl k fd Request.TUNSETPERSIST (Argp.imm (if config.Persist then 1 else 0))
          (ioctl k fd Request.TUNSETOFFLOAD
            (Argp.imm (offFlags config.PlatformSpecificParams)) tr).trace).err with
      | none =>
        refine ⟨[⟨fd, Request.TUNSETOFFLOAD, Argp.imm (offFlags config.PlatformSpecificParams),
            (k tr fd Request.TUNSETOFFLOAD
              (Argp.imm (offFlags config.PlatformSpecificParams))).errno⟩,
          ⟨fd, Request.TUNSETPERSIST, Argp.imm (if config.Persist then 1 else 0),
            (k (ioctl k fd Request.TUNSETOFFLOAD
              (Argp.imm (offFlags config.PlatformSpecificParams)) tr).trace fd
              Request.TUNSETPERSIST (Argp.imm (if config.Persist then 1 else 0))).errno⟩],
          ?_, ?_, ?_⟩
        · simp only [ioctl_trace, List.append_assoc]
          rfl
        · intro _; simp
        · simp
      | some e =>
        refine ⟨[⟨fd, Request.TUNSETOFFLOAD, Argp.imm (offFlags config.PlatformSpecificParams),
            (k tr fd Request.TUNSETOFFLOAD
              (Argp.imm (offFlags config.PlatformSpecificParams))).errno⟩,
          ⟨fd, Request.TUNSETPERSIST, Argp.imm (if config.Persist then 1 else 0),
            (k (ioctl k fd Request.TUNSETOFFLOAD
              (Argp.imm (offFlags config.PlatformSpecificParams)) tr).trace fd
              Request.TUNSETPERSIST (Argp.imm (if config.Persist then 1 else 0))).errno⟩],
          ?_, ?_, ?_⟩
        · simp only [ioctl_trace, List.append_assoc]
          rfl
        · intro _; simp
        · simp

/-- C5: for all combinations of the six offload toggles the mask assembled by
`setDeviceOptions` is the bitwise OR of the values 1, 2, 4, 8, 32, 64 of the
toggles that are true; and in a run where every earlier request (owner, group,
header size) succeeds, the TUNSETOFFLOAD request is issued exactly once, with
that mask as an immediate value, when the mask is not zero, and not issued when
the mask is zero. -/
theorem setDeviceOptions_offload (k : Kernel) (fd : Nat) (config : Config) (tr : Trace)
    (h : ∀ e ∈ issued tr (setDeviceOptions k fd config tr).trace,
      e.request ∈ [Request.TUNSETOWNER, Request.TUNSETGROUP, Request.TUNSETVNETHDRSZ] →
        e.errno = 0) :
    offFlags config.PlatformSpecificParams = offloadMaskSpec config.PlatformSpecificParams ∧
    (offFlags config.PlatformSpecificParams ≠ 0 →
      ∃ n, (issued tr (setDeviceOptions k fd config tr).trace).filter
          (fun e => e.request = Request.TUNSETOFFLOAD) =
        [⟨fd, Request.TUNSETOFFLOAD, Argp.imm (offFlags config.PlatformSpecificParams), n⟩]) ∧
    (offFlags config.PlatformSpecificParams = 0 →
      (issued tr (setDeviceOptions k fd config tr).trace).filter
        (fun e => e.request = Request.TUNSETOFFLOAD) = []) := by
  refine ⟨offFlags_eq_spec _, ?_⟩
  have hrun : setDeviceOptions k fd config tr =
      runSteps k fd ((ownerSteps config ++ vnetHdrSteps config) ++
        (offloadSteps config ++ [persistStep config])) tr := by
    rw [setDeviceOptions_eq_runSteps, optionSteps]
    simp only [List.append_assoc]
  rw [hrun, runSteps_append] at h ⊢
  rcases runSteps_spec k fd (ownerSteps config ++ vnetHdrSteps config) tr with
    ⟨h1, h2⟩ | ⟨pre, s, post, n, h1, h2, _, h4, h5⟩
  · simp only [h1, h2] at h ⊢
    obtain ⟨new, hnew, hyes, hno⟩ := offload_phase k fd config
      (tr ++ okEvents fd (ownerSteps config ++ vnetHdrSteps config))
    have hearly : (okEvents fd (ownerSteps config ++ vnetHdrSteps config)).filter
        (fun e => e.request = Request.TUNSETOFFLOAD) = [] := by
      rw [okEvents_filter]
      have : (ownerSteps config ++ vnetHdrSteps config).filter
          (fun s => s.request = Request.TUNSETOFFLOAD) = [] := by
        rw [List.filter_eq_nil_iff]
        intro s hs
        have := earlySteps_request config s hs
        simp only [List.mem_cons, List.not_mem_nil, or_false] at this
        rcases this with h | h | h <;> simp [h]
      rw [this]
      rfl
    rw [hnew, List.append_assoc, issued_append, List.filter_append, hearly, List.nil_append]
    exact ⟨hyes, hno⟩
  · exfalso
    simp only [h5, h4, issued_append] at h
    have hs : s ∈ ownerSteps config ++ vnetHdrSteps config := by rw [h1]; simp
    exact h2 (h ⟨fd, s.request, s.argp, n⟩ (by simp) (earlySteps_request config s hs))

/-- C5, witness: with owner, group and header size accepted, the configuration
with checksum and TSO over IPv4 offload issues one TUNSETOFFLOAD request with
mask 3, even when the kernel refuses that request. -/
theorem setDeviceOptions_offload_witness :
    offFlags fullConfig.PlatformSpecificParams =
      offloadMaskSpec fullConfig.PlatformSpecificParams ∧
    (offFlags fullConfig.PlatformSpecificParams ≠ 0 →
      ∃ n, (issued [] (setDeviceOptions (refusing Request.TUNSETOFFLOAD 22) 3 fullConfig
          []).trace).filter (fun e => e.request = Request.TUNSETOFFLOAD) =
        [⟨3, Request.TUNSETOFFLOAD, Argp.imm (offFlags fullConfig.PlatformSpecificParams), n⟩]) ∧
    (offFlags fullConfig.PlatformSpecificParams = 0 →
      (issued [] (setDeviceOptions (refusing Request.TUNSETOFFLOAD 22) 3 fullConfig
        []).trace).filter (fun e => e.request = Request.TUNSETOFFLOAD) = []) :=
  setDeviceOptions_offload (refusing Request.TUNSETOFFLOAD 22) 3 fullConfig [] (by decide)

/-! ## Failures -/

/-- A failed request of `setupFd` is the last issued one, every request before
it succeeded, and the returned error is the joined error of its planned step. -/
theorem setupFd_failing_event (k : Kernel) (config : Config) (fd : Nat) (tr : Trace) (e : Event)
    (he : e ∈ issued tr (setupFd k config fd tr).trace) (hfail : e.errno ≠ 0) :
    ∃ pre s post, setupSteps config = pre ++ s :: post ∧
      issued tr (setupFd k config fd tr).trace = okEvents fd pre ++ [e] ∧
      e.request = s.request ∧ e.argp = s.argp ∧ e.fd = fd ∧
      (setupFd k config fd tr).err = some (GoError.joinError
        [GoError.SyscallError "ioctl" e.errno, GoError.errorString s.descr]) := by
  rcases setupFd_spec k config fd tr with ⟨_, h2⟩ | ⟨pre, s, post, n, h1, h2, h3, h4⟩
  · rw [h2] at he
    exact absurd (okEvents_errno _ _ e he) hfail
  · rw [h3] at he
    rcases List.mem_append.1 he with h | h
    · exact absurd (okEvents_errno _ _ e h) hfail
    · simp only [List.mem_singleton] at h
      subst h
      exact ⟨pre, s, post, h1, h3, rfl, rfl, rfl, h4⟩

/-- A failed request of `setDeviceOptions` is the last issued one, every request
before it succeeded, and the returned error is the joined error of its planned
step. -/
theorem setDeviceOptions_failing_event (k : Kernel) (fd : Nat) (config : Config) (tr : Trace)
    (e : Event) (he : e ∈ issued tr (setDeviceOptions k fd config tr).trace)
    (hfail : e.errno ≠ 0) :
    ∃ pre s post, optionSteps config = pre ++ s :: post ∧
      issued tr (setDeviceOptions k fd config tr).trace = okEvents fd pre ++ [e] ∧
      e.request = s.request ∧ e.argp = s.argp ∧ e.fd = fd ∧
      (setDeviceOptions k fd config tr).err = some (GoError.joinError
        [GoError.SyscallError "ioctl" e.errno, GoError.errorString s.descr]) := by
  rcases setDeviceOptions_spec k fd config tr with ⟨_, h2⟩ | ⟨pre, s, post, n, h1, h2, h3, h4⟩
  · rw [h2] at he
    exact absurd (okEvents_errno _ _ e he) hfail
  · rw [h3] at he
    rcases List.mem_append.1 he with h | h
    · exact absurd (okEvents_errno _ _ e h) hfail
    · simp only [List.mem_singleton] at h
      subst h
      exact ⟨pre, s, post, h1, h3, rfl, rfl, rfl, h4⟩

/-- The request codes planned by `setDeviceOptions` follow the fixed order
owner, group, header size, offload, persistence. -/
theorem optionSteps_requests_sublist (config : Config) :
    ((optionSteps config).map fun s => s.request).Sublist
      [Request.TUNSETOWNER, Request.TUNSETGROUP, Request.TUNSETVNETHDRSZ,
        Request.TUNSETOFFLOAD, Request.TUNSETPERSIST] := by
  have ho : ((ownerSteps config).map fun s => s.request).Sublist
      [Request.TUNSETOWNER, Request.TUNSETGROUP] := by
    unfold ownerSteps
    cases config.Permissions <;> simp
  have hv : ((vnetHdrSteps config).map fun s => s.request).Sublist
      [Request.TUNSETVNETHDRSZ] := by
    unfold vnetHdrSteps
    split <;> simp
  have hf : ((offloadSteps config).map fun s => s.request).Sublist
      [Request.TUNSETOFFLOAD] := by
    unfold offloadSteps
    split <;> simp
  have hp : ([persistStep config].map fun s => s.request).Sublist [Request.TUNSETPERSIST] := by
    simp [persistStep]
  have := ((ho.append hv).append hf).append hp
  simpa [optionSteps] using this

/-- No option request is a creation request. -/
theorem optionSteps_request_ne (config : Config) :
    ∀ s ∈ optionSteps config, s.request ≠ Request.TUNSETIFF := by
  intro s hs heq
  have hsub := optionSteps_requests_sublist config
  have hmem : s.request ∈ (optionSteps config).map fun s => s.request :=
    List.mem_map.2 ⟨s, hs, rfl⟩
  have := hsub.subset hmem
  rw [heq] at this
  simp at this

/-- The persistence request is planned exactly once. -/
theorem setupSteps_filter_persist (config : Config) :
    (setupSteps config).filter (fun s => s.request = Request.TUNSETPERSIST) =
      [persistStep config] := by
  have ho : (ownerSteps config).filter (fun s => s.request = Request.TUNSETPERSIST) = [] := by
    unfold ownerSteps
    cases config.Permissions <;> simp
  have hv : (vnetHdrSteps config).filter (fun s => s.request = Request.TUNSETPERSIST) = [] := by
    unfold vnetHdrSteps
    split <;> simp
  have hf : (offloadSteps config).filter (fun s => s.request = Request.TUNSETPERSIST) = [] := by
    unfold offloadSteps
    split <;> simp
  have hc : (creationStep config).request ≠ Request.TUNSETPERSIST := by
    simp [creationStep]
  have hp : (persistStep config).request = Request.TUNSETPERSIST := rfl
  simp only [setupSteps, optionSteps, List.filter_cons, List.filter_append, ho, hv, hf, hc, hp,
    decide_False, decide_True, List.filter_nil, List.nil_append, if_true]
  simp

/-! ## Persistence, and the failure of a request -/

/-- C6: in every run of `setupFd` in which all requests succeed, exactly one
TUNSETPERSIST request is issued, carrying the immediate value 1 when `Persist`
is true and 0 when it is false; when `Permissions` is absent, `VnetHdrSize` is 0
and all offload toggles are false, it is the only request after the creation
request. -/
theorem setupFd_persist (k : Kernel) (config : Config) (fd : Nat) (tr : Trace)
    (h : ∀ e ∈ issued tr (setupFd k config fd tr).trace, e.errno = 0) :
    (issued tr (setupFd k config fd tr).trace).filter
        (fun e => e.request = Request.TUNSETPERSIST) =
      [⟨fd, Request.TUNSETPERSIST, Argp.imm (if config.Persist then 1 else 0), 0⟩] ∧
    (config.Permissions = none → config.PlatformSpecificParams.VnetHdrSize = 0 →
      config.PlatformSpecificParams.TunFCSum = false →
      config.PlatformSpecificParams.TunFTso4 = false →
      config.PlatformSpecificParams.TunFTso6 = false →
      config.PlatformSpecificParams.TunFTsoEcn = false →
      config.PlatformSpecificParams.TunFUso4 = false →
      config.PlatformSpecificParams.TunFUso6 = false →
      issued tr (setupFd k config fd tr).trace =
        [⟨fd, Request.TUNSETIFF,
            Argp.ifReqPtr (createInterface.request config.Name (setupFd.flags config)), 0⟩,
          ⟨fd, Request.TUNSETPERSIST, Argp.imm (if config.Persist then 1 else 0), 0⟩]) := by
  have hall : issued tr (setupFd k config fd tr).trace = okEvents fd (setupSteps config) := by
    rcases setupFd_spec k config fd tr with ⟨_, h2⟩ | ⟨pre, s, post, n, _, h2, h3, _⟩
    · exact h2
    · exact absurd (h ⟨fd, s.request, s.argp, n⟩ (by rw [h3]; simp)) h2
  refine ⟨?_, ?_⟩
  · rw [hall, okEvents_filter, setupSteps_filter_persist]
    rfl
  · intro hp hv h1 h2 h3 h4 h5 h6
    have hoff : offFlags config.PlatformSpecificParams = 0 := by
      simp [offFlags, h1, h2, h3, h4, h5, h6]
    rw [hall]
    simp [setupSteps, optionSteps, ownerSteps, vnetHdrSteps, offloadSteps, hp, hv, hoff,
      okEvents, creationStep, persistStep]

/-- C6, witness: the TUN configuration with nothing optional set, on a kernel
that accepts every request, issues the creation request and then TUNSETPERSIST
with value 0. -/
theorem setupFd_persist_witness :
    (issued [] (setupFd echoKernel tunConfig 3 []).trace).filter
        (fun e => e.request = Request.TUNSETPERSIST) =
      [⟨3, Request.TUNSETPERSIST, Argp.imm 0, 0⟩] ∧
    issued [] (setupFd echoKernel tunConfig 3 []).trace =
      [⟨3, Request.TUNSETIFF, Argp.ifReqPtr (createInterface.request [] 0x1001), 0⟩,
        ⟨3, Request.TUNSETPERSIST, Argp.imm 0, 0⟩] :=
  ⟨(setupFd_persist echoKernel tunConfig 3 [] (by decide)).1,
    (setupFd_persist echoKernel tunConfig 3 [] (by decide)).2 rfl rfl rfl rfl rfl rfl rfl rfl⟩

/-- C7: if the TUNSETIFF creation request fails, `setupFd` issues no further
request (the requests it issued are exactly that one) and returns an error,
with the empty name. -/
theorem setupFd_creation_failure (k : Kernel) (config : Config) (fd : Nat) (tr : Trace)
    (e : Event) (he : e ∈ issued tr (setupFd k config fd tr).trace)
    (hreq : e.request = Request.TUNSETIFF) (hfail : e.errno ≠ 0) :
    issued tr (setupFd k config fd tr).trace = [e] ∧
    (setupFd k config fd tr).err ≠ none ∧
    (setupFd k config fd tr).name = [] := by
  obtain ⟨pre, s, post, h1, h2, h3, _, _, h6⟩ := setupFd_failing_event k config fd tr e he hfail
  have herr : (setupFd k config fd tr).err ≠ none := by rw [h6]; simp
  refine ⟨?_, herr, ?_⟩
  · cases pre with
    | nil => simpa [okEvents] using h2
    | cons p pre =>
      exfalso
      simp only [setupSteps, List.cons_append, List.cons.injEq] at h1
      exact optionSteps_request_ne config s (by rw [h1.2]; simp) (h3 ▸ hreq)
  · rcases setupFd_name k config fd tr with ⟨_, hn⟩ | ⟨hn, _⟩
    · exact hn
    · exact absurd hn herr

/-- C7, witness: when the kernel refuses TUNSETIFF with error 1, the full
configuration issues the creation request and nothing else. -/
theorem setupFd_creation_failure_witness :
    issued [] (setupFd (refusing Request.TUNSETIFF 1) fullConfig 3 []).trace =
      [⟨3, Request.TUNSETIFF,
        Argp.ifReqPtr (createInterface.request fullConfig.Name (setupFd.flags fullConfig)), 1⟩] ∧
    (setupFd (refusing Request.TUNSETIFF 1) fullConfig 3 []).err ≠ none ∧
    (setupFd (refusing Request.TUNSETIFF 1) fullConfig 3 []).name = [] :=
  setupFd_creation_failure (refusing Request.TUNSETIFF 1) fullConfig 3 []
    ⟨3, Request.TUNSETIFF,
      Argp.ifReqPtr (createInterface.request fullConfig.Name (setupFd.flags fullConfig)), 1⟩
    (List.mem_singleton.2 rfl) rfl (by decide)

/-- C8: for every configuration and every kernel, a request issued by
`setDeviceOptions` that fails is the last one issued, `setDeviceOptions` returns
an error, and the issued request codes follow the fixed order owner, group,
header size, offload, persistence; so no request after the failed one in that
order is issued. -/
theorem setDeviceOptions_stops_at_failure (k : Kernel) (fd : Nat) (config : Config)
    (tr : Trace) (pre post : Trace) (e : Event)
    (hsplit : issued tr (setDeviceOptions k fd config tr).trace = pre ++ e :: post)
    (hfail : e.errno ≠ 0) :
    post = [] ∧
    (setDeviceOptions k fd config tr).err ≠ none ∧
    ((issued tr (setDeviceOptions k fd config tr).trace).map fun x => x.request).Sublist
      [Request.TUNSETOWNER, Request.TUNSETGROUP, Request.TUNSETVNETHDRSZ,
        Request.TUNSETOFFLOAD, Request.TUNSETPERSIST] := by
  have he : e ∈ issued tr (setDeviceOptions k fd config tr).trace := by rw [hsplit]; simp
  obtain ⟨ps, s, qs, h1, h2, h3, _, _, h6⟩ :=
    setDeviceOptions_failing_event k fd config tr e he hfail
  refine ⟨?_, by rw [h6]; simp, ?_⟩
  · rw [h2] at hsplit
    exact (failure_is_last _ _ _ _ _ (okEvents_errno fd ps) hfail hsplit).1
  · have hmap : ((issued tr (setDeviceOptions k fd config tr).trace).map fun x => x.request) =
        (ps ++ [s]).map fun x => x.request := by
      rw [h2]
      simp [okEvents, h3]
    have hsub : ((ps ++ [s]).map fun x => x.request).Sublist
        ((optionSteps config).map fun x => x.request) := by
      rw [h1]
      have : ps ++ s :: qs = (ps ++ [s]) ++ qs := by simp
      rw [this]
      simp only [List.map_append]
      exact List.sublist_append_left _ _
    rw [hmap]
    exact hsub.trans (optionSteps_requests_sublist config)

/-- C8, witness: when the kernel refuses TUNSETVNETHDRSZ with error 22, the full
configuration issues owner, group and header size and stops there. -/
theorem setDeviceOptions_stops_at_failure_witness :
    ([] : Trace) = [] ∧
    (setDeviceOptions (refusing Request.TUNSETVNETHDRSZ 22) 3 fullConfig []).err ≠ none ∧
    ((issued [] (setDeviceOptions (refusing Request.TUNSETVNETHDRSZ 22) 3 fullConfig
        []).trace).map fun x => x.request).Sublist
      [Request.TUNSETOWNER, Request.TUNSETGROUP, Request.TUNSETVNETHDRSZ,
        Request.TUNSETOFFLOAD, Request.TUNSETPERSIST] :=
  setDeviceOptions_stops_at_failure (refusing Request.TUNSETVNETHDRSZ 22) 3 fullConfig []
    [⟨3, Request.TUNSETOWNER, Argp.imm 1000, 0⟩, ⟨3, Request.TUNSETGROUP, Argp.imm 100, 0⟩] []
    ⟨3, Request.TUNSETVNETHDRSZ, Argp.uintPtr 12, 22⟩ rfl (by decide)

/-- The error of a run of `setupFd` in which a request failed: the kernel error
of that request joined with the description of that request. -/
theorem setupFd_failure_error (k : Kernel) (config : Config) (fd : Nat) (tr : Trace)
    (e : Event) (he : e ∈ issued tr (setupFd k config fd tr).trace) (hfail : e.errno ≠ 0) :
    (setupFd k config fd tr).err = some (GoError.joinError
      [GoError.SyscallError "ioctl" e.errno,
        GoError.errorString (requestDescription config e.request)]) := by
  obtain ⟨pre, s, post, h1, _, h3, _, _, h6⟩ := setupFd_failing_event k config fd tr e he hfail
  rw [h6, h3, setupSteps_descr config s (by rw [h1]; simp)]

/-- C9: for every failing request (creation, owner, group, header size,
offload, persistence), the error returned by `setupFd` joins the kernel error of
exactly that request, wrapped as the system-call error of `ioctl`, with a
description that names that request and its attempted argument; the failing
request is one of the planned requests of the configuration, issued with the
planned argument. -/
theorem setupFd_error_identifies (k : Kernel) (config : Config) (fd : Nat) (tr : Trace)
    (e : Event) (he : e ∈ issued tr (setupFd k config fd tr).trace) (hfail : e.errno ≠ 0) :
    (setupFd k config fd tr).err = some (GoError.joinError
      [GoError.SyscallError "ioctl" e.errno,
        GoError.errorString (requestDescription config e.request)]) ∧
    ∃ s ∈ setupSteps config, e.request = s.request ∧ e.argp = s.argp := by
  refine ⟨setupFd_failure_error k config fd tr e he hfail, ?_⟩
  obtain ⟨pre, s, post, h1, _, h3, h4, _, _⟩ := setupFd_failing_event k config fd tr e he hfail
  exact ⟨s, by rw [h1]; simp, h3, h4⟩

/-- C9, witness: when the kernel refuses TUNSETGROUP with error 1, the error of
the full configuration joins error 1 with the text `ioctl(fd, TUNSETGROUP, 100)`. -/
theorem setupFd_error_identifies_witness :
    (setupFd (refusing Request.TUNSETGROUP 1) fullConfig 3 []).err = some (GoError.joinError
      [GoError.SyscallError "ioctl" 1,
        GoError.errorString (ascii "ioctl(fd, TUNSETGROUP, 100)")]) :=
  (setupFd_error_identifies (refusing Request.TUNSETGROUP 1) fullConfig 3 []
    ⟨3, Request.TUNSETGROUP, Argp.imm 100, 1⟩
    (List.Mem.tail _ (List.Mem.tail _ (List.Mem.head _))) (by decide)).1

/-- C10: `setupFd` has no partial success. It returns a non-nil error together
with the empty name exactly when some request it issued failed; a failed request
is the last one issued, every request before it succeeded, and the error is the
one of that request; when no request failed it returns a nil error and the name
resolved by `createInterface`. -/
theorem setupFd_no_partial_success (k : Kernel) (config : Config) (fd : Nat) (tr : Trace) :
    (((setupFd k config fd tr).err ≠ none ∧ (setupFd k config fd tr).name = []) ↔
      ∃ e ∈ issued tr (setupFd k config fd tr).trace, e.errno ≠ 0) ∧
    (∀ pre e post, issued tr (setupFd k config fd tr).trace = pre ++ e :: post →
      e.errno ≠ 0 →
      post = [] ∧ (∀ x ∈ pre, x.errno = 0) ∧
      (setupFd k config fd tr).err = some (GoError.joinError
        [GoError.SyscallError "ioctl" e.errno,
          GoError.errorString (requestDescription config e.request)])) ∧
    ((∀ e ∈ issued tr (setupFd k config fd tr).trace, e.errno = 0) →
      (setupFd k config fd tr).err = none ∧
      (createInterface k fd config.Name (setupFd.flags config) tr).err = none ∧
      (setupFd k config fd tr).name =
        (createInterface k fd config.Name (setupFd.flags config) tr).name) := by
  refine ⟨⟨?_, ?_⟩, ?_, ?_⟩
  · rintro ⟨herr, _⟩
    rcases setupFd_spec k config fd tr with ⟨h1, _⟩ | ⟨pre, s, post, n, _, h2, h3, _⟩
    · exact absurd h1 herr
    · exact ⟨⟨fd, s.request, s.argp, n⟩, by rw [h3]; simp, h2⟩
  · rintro ⟨e, he, hfail⟩
    have herr : (setupFd k config fd tr).err ≠ none := by
      rw [setupFd_failure_error k config fd tr e he hfail]; simp
    rcases setupFd_name k config fd tr with ⟨_, hn⟩ | ⟨hn, _⟩
    · exact ⟨herr, hn⟩
    · exact absurd hn herr
  · intro pre e post hsplit hfail
    have he : e ∈ issued tr (setupFd k config fd tr).trace := by rw [hsplit]; simp
    obtain ⟨ps, s, qs, _, h2, _, _, _, _⟩ := setupFd_failing_event k config fd tr e he hfail
    rw [h2] at hsplit
    obtain ⟨hq, _, hp⟩ := failure_is_last _ _ _ _ _ (okEvents_errno fd ps) hfail hsplit
    refine ⟨hq, ?_, setupFd_failure_error k config fd tr e he hfail⟩
    rw [hp]
    exact okEvents_errno fd ps
  · intro hall
    rcases setupFd_name k config fd tr with ⟨herr, _⟩ | ⟨h1, h2, h3, _⟩
    · exfalso
      rcases setupFd_spec k config fd tr with ⟨h1, _⟩ | ⟨pre, s, post, n, _, h2, h3, _⟩
      · exact herr h1
      · exact h2 (hall ⟨fd, s.request, s.argp, n⟩ (by rw [h3]; simp))
    · exact ⟨h1, h2, h3⟩

/-! ## Issued requests are planned requests -/

theorem okEvents_mem (fd : Nat) (steps : List Step) (e : Event) (he : e ∈ okEvents fd steps) :
    ∃ s ∈ steps, e.request = s.request ∧ e.argp = s.argp ∧ e.fd = fd ∧ e.errno = 0 := by
  simp only [okEvents, List.mem_map] at he
  obtain ⟨s, hs, rfl⟩ := he
  exact ⟨s, hs, rfl, rfl, rfl, rfl⟩

/-- Every request a run of the plan issues is one of the planned requests,
issued against the descriptor of the run. -/
theorem runSteps_issued_step (k : Kernel) (fd : Nat) (steps : List Step) (tr : Trace) :
    ∀ e ∈ issued tr (runSteps k fd steps tr).trace,
      ∃ s ∈ steps, e.request = s.request ∧ e.argp = s.argp ∧ e.fd = fd := by
  intro e he
  rcases runSteps_spec k fd steps tr with ⟨_, h2⟩ | ⟨pre, s, post, n, h1, _, _, h4, _⟩
  · rw [h2, issued_append] at he
    obtain ⟨s, hs, h3, h4, h5, _⟩ := okEvents_mem fd steps e he
    exact ⟨s, hs, h3, h4, h5⟩
  · rw [h4, issued_append] at he
    rcases List.mem_append.1 he with h | h
    · obtain ⟨s0, hs, h3, h4, h5, _⟩ := okEvents_mem fd pre e h
      exact ⟨s0, by rw [h1]; simp [hs], h3, h4, h5⟩
    · simp only [List.mem_singleton] at h
      subst h
      exact ⟨s, by rw [h1]; simp, rfl, rfl, rfl⟩

/-- Every request `setDeviceOptions` issues is one of its planned requests. -/
theorem setDeviceOptions_issued_step (k : Kernel) (fd : Nat) (config : Config) (tr : Trace) :
    ∀ e ∈ issued tr (setDeviceOptions k fd config tr).trace,
      ∃ s ∈ optionSteps config, e.request = s.request ∧ e.argp = s.argp ∧ e.fd = fd := by
  rw [setDeviceOptions_eq_runSteps]
  exact runSteps_issued_step k fd (optionSteps config) tr

/-- Every request `setupFd` issues is one of its planned requests. -/
theorem setupFd_issued_step (k : Kernel) (config : Config) (fd : Nat) (tr : Trace) :
    ∀ e ∈ issued tr (setupFd k config fd tr).trace,
      ∃ s ∈ setupSteps config, e.request = s.request ∧ e.argp = s.argp ∧ e.fd = fd := by
  rw [(setupFd_eq_runSteps k config fd tr).2]
  exact runSteps_issued_step k fd (setupSteps config) tr

/-- A request code that is not planned is not issued. -/
theorem runSteps_filter_nil (k : Kernel) (fd : Nat) (steps : List Step) (tr : Trace)
    (r : Request) (h : ∀ s ∈ steps, s.request ≠ r) :
    (issued tr (runSteps k fd steps tr).trace).filter (fun e => e.request = r) = [] := by
  rw [List.filter_eq_nil_iff]
  intro e he
  obtain ⟨s, hs, h3, _, _⟩ := runSteps_issued_step k fd steps tr e he
  simpa [h3] using h s hs

/-- The requests planned from the offload step on are offload and persistence
requests. -/
theorem lateSteps_request (config : Config) :
    ∀ s ∈ offloadSteps config ++ [persistStep config],
      s.request ∈ [Request.TUNSETOFFLOAD, Request.TUNSETPERSIST] := by
  intro s hs
  rcases List.mem_append.1 hs with h | h
  · unfold offloadSteps at h
    split at h
    · simp only [List.mem_singleton] at h
      subst h
      simp
    · simp at h
  · simp only [List.mem_singleton] at h
    subst h
    simp [persistStep]

/-- The ownership requests planned are owner and group requests. -/
theorem ownerSteps_request (config : Config) :
    ∀ s ∈ ownerSteps config, s.request ∈ [Request.TUNSETOWNER, Request.TUNSETGROUP] := by
  intro s h
  unfold ownerSteps at h
  cases hp : config.Permissions with
  | none => simp [hp] at h
  | some perm =>
    simp only [hp, List.mem_cons, List.not_mem_nil, or_false] at h
    rcases h with rfl | rfl <;> simp

/-! ## The ownership and header-size steps -/

theorem vnetHdr_trace_extends (k : Kernel) (fd : Nat) (config : Config) (tr : Trace) :
    ∃ new, (setDeviceOptions.vnetHdr k fd config tr).trace = tr ++ new := by
  rw [vnetHdr_eq_runSteps]
  exact runSteps_trace_extends _ _ _ _

/-- C11: when `Permissions` is present, the first request `setDeviceOptions`
issues is TUNSETOWNER carrying the owner id; if it fails nothing follows, and if
it succeeds the next request is TUNSETGROUP carrying the group id.  When
`Permissions` is absent, no TUNSETOWNER and no TUNSETGROUP request is issued. -/
theorem setDeviceOptions_ownership (k : Kernel) (fd : Nat) (config : Config) (tr : Trace) :
    (∀ perm, config.Permissions = some perm →
      ∃ n rest, issued tr (setDeviceOptions k fd config tr).trace =
          ⟨fd, Request.TUNSETOWNER, Argp.imm perm.Owner, n⟩ :: rest ∧
        (n ≠ 0 → rest = []) ∧
        (n = 0 → ∃ m rest2,
          rest = ⟨fd, Request.TUNSETGROUP, Argp.imm perm.Group, m⟩ :: rest2)) ∧
    (config.Permissions = none →
      ∀ e ∈ issued tr (setDeviceOptions k fd config tr).trace,
        e.request ≠ Request.TUNSETOWNER ∧ e.request ≠ Request.TUNSETGROUP) := by
  refine ⟨fun perm hp => ?_, fun hp e he => ?_⟩
  · simp only [setDeviceOptions, hp]
    by_cases h1 : (k tr fd Request.TUNSETOWNER (Argp.imm perm.Owner)).errno = 0
    · have e1 := ioctl_err_of_zero k fd Request.TUNSETOWNER (Argp.imm perm.Owner) tr h1
      simp only [e1, ioctl_trace, h1]
      by_cases h2 : (k (tr ++ [⟨fd, Request.TUNSETOWNER, Argp.imm perm.Owner, 0⟩]) fd
          Request.TUNSETGROUP (Argp.imm perm.Group)).errno = 0
      · have e2 := ioctl_err_of_zero k fd Request.TUNSETGROUP (Argp.imm perm.Group) _ h2
        simp only [e2, ioctl_trace, h2]
        obtain ⟨new, hnew⟩ := vnetHdr_trace_extends k fd config
          (tr ++ [⟨fd, Request.TUNSETOWNER, Argp.imm perm.Owner, 0⟩] ++
            [⟨fd, Request.TUNSETGROUP, Argp.imm perm.Group, 0⟩])
        refine ⟨0, ⟨fd, Request.TUNSETGROUP, Argp.imm perm.Group, 0⟩ :: new, ?_,
          fun h => absurd rfl h, fun _ => ⟨0, new, rfl⟩⟩
        rw [hnew]
        simp [issued]
      · have e2 := ioctl_err_of_ne_zero k fd Request.TUNSETGROUP (Argp.imm perm.Group) _ h2
        simp only [e2, ioctl_trace]
        refine ⟨0, [⟨fd, Request.TUNSETGROUP, Argp.imm perm.Group,
          (k (tr ++ [⟨fd, Request.TUNSETOWNER, Argp.imm perm.Owner, 0⟩]) fd
            Request.TUNSETGROUP (Argp.imm perm.Group)).errno⟩], ?_,
          fun h => absurd rfl h, fun _ => ⟨_, [], rfl⟩⟩
        simp [issued]
    · have e1 := ioctl_err_of_ne_zero k fd Request.TUNSETOWNER (Argp.imm perm.Owner) tr h1
      simp only [e1, ioctl_trace]
      refine ⟨(k tr fd Request.TUNSETOWNER (Argp.imm perm.Owner)).errno, [], ?_,
        fun _ => rfl, fun h => absurd h h1⟩
      simp [issued]
  · obtain ⟨s, hs, h3, _, _⟩ := setDeviceOptions_issued_step k fd config tr e he
    have hown : ownerSteps config = [] := by simp [ownerSteps, hp]
    simp only [optionSteps, hown, List.nil_append, List.append_assoc, List.mem_append] at hs
    rw [h3]
    rcases hs with h | h
    · unfold vnetHdrSteps at h
      split at h
      · simp only [List.mem_singleton] at h
        subst h
        simp
      · simp at h
    · have := lateSteps_request config s (List.mem_append.2 h)
      simp only [List.mem_cons, List.not_mem_nil, or_false] at this
      rcases this with h | h <;> simp [h]

/-- From the header-size step on: the header-size request is issued once, with
the size by reference, when the size is not zero, and not at all when it is. -/
theorem vnetHdr_phase (k : Kernel) (fd : Nat) (config : Config) (tr : Trace) :
    ∃ new, (runSteps k fd (vnetHdrSteps config ++ (offloadSteps config ++ [persistStep config]))
        tr).trace = tr ++ new ∧
      (config.PlatformSpecificParams.VnetHdrSize ≠ 0 →
        ∃ n, new.filter (fun e => e.request = Request.TUNSETVNETHDRSZ) =
          [⟨fd, Request.TUNSETVNETHDRSZ,
            Argp.uintPtr config.PlatformSpecificParams.VnetHdrSize, n⟩]) ∧
      (config.PlatformSpecificParams.VnetHdrSize = 0 →
        new.filter (fun e => e.request = Request.TUNSETVNETHDRSZ) = []) := by
  have hlate : ∀ s ∈ offloadSteps config ++ [persistStep config],
      s.request ≠ Request.TUNSETVNETHDRSZ := by
    intro s hs
    have := lateSteps_request config s hs
    simp only [List.mem_cons, List.not_mem_nil, or_false] at this
    rcases this with h | h <;> simp [h]
  by_cases h0 : config.PlatformSpecificParams.VnetHdrSize = 0
  · obtain ⟨new, hnew⟩ := runSteps_trace_extends k fd
      (offloadSteps config ++ [persistStep config]) tr
    have hf := runSteps_filter_nil k fd _ tr Request.TUNSETVNETHDRSZ hlate
    rw [hnew, issued_append] at hf
    refine ⟨new, ?_, fun h => absurd h0 h, fun _ => hf⟩
    simp only [vnetHdrSteps, h0, ne_eq, not_true_eq_false, if_false, List.nil_append]
    exact hnew
  · simp only [vnetHdrSteps, h0, ne_eq, not_false_eq_true, if_true, List.cons_append,
      List.nil_append, runSteps]
    cases h1 : (ioctl k fd Request.TUNSETVNETHDRSZ
        (Argp.uintPtr config.PlatformSpecificParams.VnetHdrSize) tr).err with
    | some e =>
      refine ⟨[⟨fd, Request.TUNSETVNETHDRSZ,
        Argp.uintPtr config.PlatformSpecificParams.VnetHdrSize,
        (k tr fd Request.TUNSETVNETHDRSZ
          (Argp.uintPtr config.PlatformSpecificParams.VnetHdrSize)).errno⟩], ?_, ?_, ?_⟩
      · rfl
      · intro _; exact ⟨_, rfl⟩
      · intro h; exact absurd h (by simp)
    | none =>
      simp only
      obtain ⟨new, hnew⟩ := runSteps_trace_extends k fd
        (offloadSteps config ++ [persistStep config])
        (ioctl k fd Request.TUNSETVNETHDRSZ
          (Argp.uintPtr config.PlatformSpecificParams.VnetHdrSize) tr).trace
      have hf := runSteps_filter_nil k fd _ (ioctl k fd Request.TUNSETVNETHDRSZ
          (Argp.uintPtr config.PlatformSpecificParams.VnetHdrSize) tr).trace
        Request.TUNSETVNETHDRSZ hlate
      rw [hnew, issued_append] at hf
      refine ⟨⟨fd, Request.TUNSETVNETHDRSZ,
        Argp.uintPtr config.PlatformSpecificParams.VnetHdrSize,
        (k tr fd Request.TUNSETVNETHDRSZ
          (Argp.uintPtr config.PlatformSpecificParams.VnetHdrSize)).errno⟩ :: new, ?_, ?_, ?_⟩
      · rw [hnew, ioctl_trace]
        simp
      · intro _
        refine ⟨(k tr fd Request.TUNSETVNETHDRSZ
          (Argp.uintPtr config.PlatformSpecificParams.VnetHdrSize)).errno, ?_⟩
        rw [List.filter_cons_of_pos (by simp), hf]
      · intro h; exact absurd h (by simp)

/-- C12: in a run of `setDeviceOptions` where every earlier request (owner,
group) succeeds, the TUNSETVNETHDRSZ request is issued exactly once, carrying
`VnetHdrSize` by reference, when `VnetHdrSize` is not zero, and is not issued at
all when it is zero. -/
theorem setDeviceOptions_vnetHdr (k : Kernel) (fd : Nat) (config : Config) (tr : Trace)
    (h : ∀ e ∈ issued tr (setDeviceOptions k fd config tr).trace,
      e.request ∈ [Request.TUNSETOWNER, Request.TUNSETGROUP] → e.errno = 0) :
    (config.PlatformSpecificParams.VnetHdrSize ≠ 0 →
      ∃ n, (issued tr (setDeviceOptions k fd config tr).trace).filter
          (fun e => e.request = Request.TUNSETVNETHDRSZ) =
        [⟨fd, Request.TUNSETVNETHDRSZ,
          Argp.uintPtr config.PlatformSpecificParams.VnetHdrSize, n⟩]) ∧
    (config.PlatformSpecificParams.VnetHdrSize = 0 →
      (issued tr (setDeviceOptions k fd config tr).trace).filter
        (fun e => e.request = Request.TUNSETVNETHDRSZ) = []) := by
  have hrun : setDeviceOptions k fd config tr =
      runSteps k fd (ownerSteps config ++
        (vnetHdrSteps config ++ (offloadSteps config ++ [persistStep config]))) tr := by
    rw [setDeviceOptions_eq_runSteps, optionSteps]
    simp only [List.append_assoc]
  rw [hrun, runSteps_append] at h ⊢
  rcases runSteps_spec k fd (ownerSteps config) tr with
    ⟨h1, h2⟩ | ⟨pre, s, post, n, h1, h2, _, h4, h5⟩
  · simp only [h1, h2] at h ⊢
    obtain ⟨new, hnew, hyes, hno⟩ := vnetHdr_phase k fd config
      (tr ++ okEvents fd (ownerSteps config))
    have hearly : (okEvents fd (ownerSteps config)).filter
        (fun e => e.request = Request.TUNSETVNETHDRSZ) = [] := by
      rw [okEvents_filter]
      have : (ownerSteps config).filter
          (fun s => s.request = Request.TUNSETVNETHDRSZ) = [] := by
        rw [List.filter_eq_nil_iff]
        intro s hs
        have := ownerSteps_request config s hs
        simp only [List.mem_cons, List.not_mem_nil, or_false] at this
        rcases this with h | h <;> simp [h]
      rw [this]
      rfl
    rw [hnew, List.append_assoc, issued_append, List.filter_append, hearly, List.nil_append]
    exact ⟨hyes, hno⟩
  · exfalso
    simp only [h5, h4, issued_append] at h
    have hs : s ∈ ownerSteps config := by rw [h1]; simp
    exact h2 (h ⟨fd, s.request, s.argp, n⟩ (by simp) (ownerSteps_request config s hs))

/-- C12, witness: with owner and group accepted, the full configuration issues
one TUNSETVNETHDRSZ request carrying the size 12 by reference, even when the
kernel refuses it. -/
theorem setDeviceOptions_vnetHdr_witness :
    (fullConfig.PlatformSpecificParams.VnetHdrSize ≠ 0 →
      ∃ n, (issued [] (setDeviceOptions (refusing Request.TUNSETVNETHDRSZ 22) 3 fullConfig
          []).trace).filter (fun e => e.request = Request.TUNSETVNETHDRSZ) =
        [⟨3, Request.TUNSETVNETHDRSZ,
          Argp.uintPtr fullConfig.PlatformSpecificParams.VnetHdrSize, n⟩]) ∧
    (fullConfig.PlatformSpecificParams.VnetHdrSize = 0 →
      (issued [] (setDeviceOptions (refusing Request.TUNSETVNETHDRSZ 22) 3 fullConfig
        []).trace).filter (fun e => e.request = Request.TUNSETVNETHDRSZ) = []) :=
  setDeviceOptions_vnetHdr (refusing Request.TUNSETVNETHDRSZ 22) 3 fullConfig [] (by decide)

/-! ## The order and the number of the requests -/

/-- The request codes of the plan of `setupFd` are the all-success sequence of
the specification. -/
theorem setupSteps_codes (config : Config) :
    (setupSteps config).map (fun s => s.request) = allSuccessCodes config := by
  have ho : (ownerSteps config).map (fun s => s.request) =
      if config.Permissions.isSome then [Request.TUNSETOWNER, Request.TUNSETGROUP] else [] := by
    unfold ownerSteps
    cases config.Permissions <;> simp
  have hv : (vnetHdrSteps config).map (fun s => s.request) =
      if config.PlatformSpecificParams.VnetHdrSize ≠ 0 then [Request.TUNSETVNETHDRSZ]
      else [] := by
    unfold vnetHdrSteps
    split <;> simp
  have hf : (offloadSteps config).map (fun s => s.request) =
      if offFlags config.PlatformSpecificParams ≠ 0 then [Request.TUNSETOFFLOAD] else [] := by
    unfold offloadSteps
    split <;> simp
  simp only [setupSteps, optionSteps, List.map_cons, List.map_append, List.map_nil, ho, hv, hf,
    allSuccessCodes]
  rfl

/-- The request codes `setupFd` issued are an initial part of the codes of its
plan. -/
theorem setupFd_codes_extend (k : Kernel) (config : Config) (fd : Nat) (tr : Trace) :
    ∃ rest, (setupSteps config).map (fun s => s.request) =
      (issued tr (setupFd k config fd tr).trace).map (fun e => e.request) ++ rest := by
  rcases setupFd_spec k config fd tr with ⟨_, h2⟩ | ⟨pre, s, post, n, h1, _, h3, _⟩
  · exact ⟨[], by rw [h2]; simp [okEvents]⟩
  · exact ⟨post.map fun s => s.request, by rw [h3, h1]; simp [okEvents]⟩

/-- A run of `setupFd` without a failed request issued its whole plan and
returned no error. -/
theorem setupFd_all_ok (k : Kernel) (config : Config) (fd : Nat) (tr : Trace)
    (h : ∀ e ∈ issued tr (setupFd k config fd tr).trace, e.errno = 0) :
    issued tr (setupFd k config fd tr).trace = okEvents fd (setupSteps config) ∧
    (setupFd k config fd tr).err = none := by
  rcases setupFd_spec k config fd tr with ⟨h1, h2⟩ | ⟨pre, s, post, n, _, h2, h3, _⟩
  · exact ⟨h2, h1⟩
  · exact absurd (h ⟨fd, s.request, s.argp, n⟩ (by rw [h3]; simp)) h2

/-- A failed request of `setupFd` has nothing after it, and everything before it
succeeded. -/
theorem setupFd_failure_last (k : Kernel) (config : Config) (fd : Nat) (tr : Trace)
    (a b : Trace) (x : Event)
    (hsplit : issued tr (setupFd k config fd tr).trace = a ++ x :: b) (hfail : x.errno ≠ 0) :
    b = [] ∧ ∀ y ∈ a, y.errno = 0 := by
  have hx : x ∈ issued tr (setupFd k config fd tr).trace := by rw [hsplit]; simp
  obtain ⟨ps, s, qs, _, h2, _, _, _, _⟩ := setupFd_failing_event k config fd tr x hx hfail
  rw [h2] at hsplit
  obtain ⟨hq, _, hp⟩ := failure_is_last _ _ _ _ _ (okEvents_errno fd ps) hfail hsplit
  exact ⟨hq, by rw [hp]; exact okEvents_errno fd ps⟩

/-- An element that does not occur before the last place of a list can only be
split off at the last place. -/
theorem split_at_last {α : Type} (p : α → Prop) (init a b : List α) (x z : α)
    (hinit : ∀ y ∈ init, ¬ p y) (hx : p x) (h : a ++ x :: b = init ++ [z]) : b = [] := by
  rcases List.eq_nil_or_concat b with hb | ⟨b1, w, hb⟩
  · exact hb
  · exfalso
    subst hb
    have h2 : (a ++ x :: b1) ++ [w] = init ++ [z] := by simpa using h
    obtain ⟨h3, _⟩ := List.append_inj' h2 rfl
    exact hinit x (by rw [← h3]; simp) hx

/-- The persistence code is the last code of the all-success sequence and
occurs nowhere before. -/
theorem allSuccessCodes_init (config : Config) :
    ∃ init, allSuccessCodes config = init ++ [Request.TUNSETPERSIST] ∧
      ∀ r ∈ init, ¬ r = Request.TUNSETPERSIST := by
  refine ⟨_, rfl, ?_⟩
  intro r hr
  simp only [List.mem_append, List.mem_singleton] at hr
  rcases hr with ((h | h) | h) | h
  · simp [h]
  · split at h
    · simp only [List.mem_cons, List.not_mem_nil, or_false] at h
      rcases h with h | h <;> simp [h]
    · simp at h
  · split at h
    · simp only [List.mem_singleton] at h
      simp [h]
    · simp at h
  · split at h
    · simp only [List.mem_singleton] at h
      simp [h]
    · simp at h

/-- The creation code is the first code of the all-success sequence and occurs
nowhere after; the sequence has between two and six codes. -/
theorem allSuccessCodes_tail (config : Config) :
    ∃ tl, allSuccessCodes config = Request.TUNSETIFF :: tl ∧
      (∀ r ∈ tl, r ≠ Request.TUNSETIFF) ∧ 1 ≤ tl.length ∧ tl.length ≤ 5 := by
  unfold allSuccessCodes
  cases config.Permissions <;>
    by_cases hv : config.PlatformSpecificParams.VnetHdrSize = 0 <;>
    by_cases hf : offFlags config.PlatformSpecificParams = 0 <;>
    simp [hv, hf]

/-- C13: for every configuration and every kernel, the sequence of request
codes `setupFd` issued is an initial part of the all-success sequence of that
configuration (TUNSETIFF; TUNSETOWNER and TUNSETGROUP if `Permissions` is
present; TUNSETVNETHDRSZ if `VnetHdrSize` is not zero; TUNSETOFFLOAD if the
offload mask is not zero; TUNSETPERSIST), and is the whole sequence when no
request failed.  So a TUNSETPERSIST request, whenever issued, is the last
request, and every request before it succeeded. -/
theorem setupFd_request_order (k : Kernel) (config : Config) (fd : Nat) (tr : Trace) :
    (∃ rest, allSuccessCodes config =
      (issued tr (setupFd k config fd tr).trace).map (fun e => e.request) ++ rest) ∧
    ((∀ e ∈ issued tr (setupFd k config fd tr).trace, e.errno = 0) →
      (issued tr (setupFd k config fd tr).trace).map (fun e => e.request) =
        allSuccessCodes config) ∧
    (∀ pre e post, issued tr (setupFd k config fd tr).trace = pre ++ e :: post →
      e.request = Request.TUNSETPERSIST → post = [] ∧ ∀ x ∈ pre, x.errno = 0) := by
  obtain ⟨rest, hrest⟩ := setupFd_codes_extend k config fd tr
  rw [setupSteps_codes] at hrest
  refine ⟨⟨rest, hrest⟩, ?_, ?_⟩
  · intro hall
    rw [(setupFd_all_ok k config fd tr hall).1, ← setupSteps_codes]
    simp [okEvents]
  · intro pre e post hsplit hreq
    obtain ⟨init, hinit, hnot⟩ := allSuccessCodes_init config
    have hpost : post = [] := by
      rw [hsplit, hinit] at hrest
      simp only [List.map_append, List.map_cons, hreq, List.append_assoc,
        List.cons_append] at hrest
      have := split_at_last (fun r => r = Request.TUNSETPERSIST) init _ _ _ _ hnot rfl
        hrest.symm
      simp only [List.append_eq_nil, List.map_eq_nil_iff] at this
      exact this.1
    refine ⟨hpost, ?_⟩
    intro x hx
    by_contra hne
    obtain ⟨a, b, hab⟩ := List.append_of_mem hx
    have h2 : issued tr (setupFd k config fd tr).trace = a ++ x :: (b ++ e :: post) := by
      rw [hsplit, hab]
      simp
    have := (setupFd_failure_last k config fd tr a _ x h2 hne).1
    simp at this

/-- C14: for every configuration and every kernel, `setupFd` issues exactly one
creation request, the first one, followed by between zero and five further
requests (so between one and six in total), with no further request exactly when
the creation request fails. -/
theorem setupFd_request_count (k : Kernel) (config : Config) (fd : Nat) (tr : Trace) :
    ∃ e rest, issued tr (setupFd k config fd tr).trace = e :: rest ∧
      e.request = Request.TUNSETIFF ∧
      (∀ x ∈ rest, x.request ≠ Request.TUNSETIFF) ∧
      rest.length ≤ 5 ∧
      1 ≤ (issued tr (setupFd k config fd tr).trace).length ∧
      (issued tr (setupFd k config fd tr).trace).length ≤ 6 ∧
      (rest = [] ↔ e.errno ≠ 0) := by
  obtain ⟨rest, hhead⟩ := setupFd_trace_head k config fd tr
  have hiss : issued tr (setupFd k config fd tr).trace =
      ⟨fd, Request.TUNSETIFF,
        Argp.ifReqPtr (createInterface.request config.Name (setupFd.flags config)),
        (k tr fd Request.TUNSETIFF
          (Argp.ifReqPtr (createInterface.request config.Name (setupFd.flags config)))).errno⟩ ::
        rest := by
    rw [hhead, issued_append]
  obtain ⟨more, hmore⟩ := setupFd_codes_extend k config fd tr
  obtain ⟨tl, htl, hne, _, hlen⟩ := allSuccessCodes_tail config
  rw [setupSteps_codes, htl, hiss] at hmore
  simp only [List.map_cons, List.cons_append, List.cons.injEq, true_and] at hmore
  have hrl : rest.length ≤ 5 := by
    have := congrArg List.length hmore
    simp only [List.length_append, List.length_map] at this
    omega
  refine ⟨_, rest, hiss, rfl, ?_, hrl, ?_, ?_, ?_, ?_⟩
  · intro x hx
    apply hne
    rw [hmore]
    exact List.mem_append_left _ (List.mem_map.2 ⟨x, hx, rfl⟩)
  · rw [hiss]; simp
  · rw [hiss]; simp only [List.length_cons]; omega
  · intro hnil hzero
    have hall : ∀ e ∈ issued tr (setupFd k config fd tr).trace, e.errno = 0 := by
      rw [hiss, hnil]
      intro e he
      simp only [List.mem_singleton] at he
      rw [he]
      exact hzero
    have h1 := (setupFd_all_ok k config fd tr hall).1
    have h2 := congrArg List.length h1
    have h3 := congrArg List.length (setupSteps_codes config)
    rw [htl] at h3
    rw [hiss, hnil] at h2
    simp only [okEvents, List.length_map, List.length_cons, List.length_nil] at h2 h3
    omega
  · intro hfail
    exact (setupFd_failure_last k config fd tr [] rest _ (by rw [hiss]; rfl) hfail).1

/-! ## The resolved name -/

theorem stringsTrim_length_le (s : GoString) (c : Byte) : (stringsTrim s c).length ≤ s.length := by
  obtain ⟨a, b, h, _, _⟩ := stringsTrim_spec s c
  have := congrArg List.length h
  simp only [List.length_append, List.length_replicate] at this
  omega

/-- The name `createInterface` returns has at most 16 bytes. -/
theorem createInterface_name_length (k : Kernel) (fd : Nat) (ifName : GoString) (flags : Nat)
    (tr : Trace) : (createInterface k fd ifName flags tr).name.length ≤ 16 := by
  simp only [createInterface]
  split
  · simp
  · have h1 := stringsTrim_length_le (ioctl k fd Request.TUNSETIFF
      (Argp.ifReqPtr (createInterface.request ifName flags)) tr).req.Name.val 0
    have h2 := (ioctl k fd Request.TUNSETIFF
      (Argp.ifReqPtr (createInterface.request ifName flags)) tr).req.Name.property
    simp only at h1 h2 ⊢
    omega

/-- C15: for every configuration and every name field the kernel echoes back,
the name returned by `setupFd` and the name returned by `createInterface` have
at most 16 bytes. -/
theorem setupFd_name_length (k : Kernel) (config : Config) (fd : Nat) (tr : Trace) :
    (setupFd k config fd tr).name.length ≤ 16 ∧
    (createInterface k fd config.Name (setupFd.flags config) tr).name.length ≤ 16 := by
  refine ⟨?_, createInterface_name_length _ _ _ _ _⟩
  rcases setupFd_name k config fd tr with ⟨_, hn⟩ | ⟨_, _, hn, _⟩
  · rw [hn]; simp
  · rw [hn]; exact createInterface_name_length _ _ _ _ _

/-! ## The two scenarios -/

/-- C16: for the TUN configuration with an empty name and nothing else set, the
creation request has the flags 0x1001 and an all-zero name field; when all
requests succeed, the only request after creation is TUNSETPERSIST with value 0,
no error is returned, and the resolved name is the echoed name field without its
zero bytes, so a field holding a name followed by zero bytes resolves to that
name. -/
theorem setupFd_scenario_tun (k : Kernel) (fd : Nat) (tr : Trace) :
    setupFd.flags tunConfig = 0x1001 ∧
    (createInterface.request tunConfig.Name (setupFd.flags tunConfig)).Flags = 0x1001 ∧
    (createInterface.request tunConfig.Name (setupFd.flags tunConfig)).Name.val =
      List.replicate 16 0 ∧
    (∃ n rest, issued tr (setupFd k tunConfig fd tr).trace =
      ⟨fd, Request.TUNSETIFF, Argp.ifReqPtr (createInterface.request [] 0x1001), n⟩ :: rest) ∧
    ((∀ e ∈ issued tr (setupFd k tunConfig fd tr).trace, e.errno = 0) →
      issued tr (setupFd k tunConfig fd tr).trace =
        [⟨fd, Request.TUNSETIFF, Argp.ifReqPtr (createInterface.request [] 0x1001), 0⟩,
          ⟨fd, Request.TUNSETPERSIST, Argp.imm 0, 0⟩] ∧
      (setupFd k tunConfig fd tr).err = none ∧
      (setupFd k tunConfig fd tr).name = stringsTrim (k tr fd Request.TUNSETIFF
        (Argp.ifReqPtr (createInterface.request [] 0x1001))).req.Name.val 0 ∧
      ∀ N : GoString, N.head? ≠ some 0 → N.getLast? ≠ some 0 →
        (k tr fd Request.TUNSETIFF
          (Argp.ifReqPtr (createInterface.request [] 0x1001))).req.Name.val =
            N ++ List.replicate (16 - N.length) 0 →
        (setupFd k tunConfig fd tr).name = N) := by
  refine ⟨by decide, by decide, by decide, ?_, ?_⟩
  · obtain ⟨rest, h⟩ := setupFd_trace_head k tunConfig fd tr
    exact ⟨_, rest, by rw [h, issued_append]; rfl⟩
  · intro hall
    obtain ⟨h1, h2⟩ := setupFd_all_ok k tunConfig fd tr hall
    have hname : (setupFd k tunConfig fd tr).name = stringsTrim (k tr fd Request.TUNSETIFF
        (Argp.ifReqPtr (createInterface.request [] 0x1001))).req.Name.val 0 := by
      rcases setupFd_name k tunConfig fd tr with ⟨herr, _⟩ | ⟨_, _, _, hn⟩
      · exact absurd h2 herr
      · exact hn
    refine ⟨by rw [h1]; rfl, h2, hname, ?_⟩
    intro N hh hl hecho
    rw [hname, hecho]
    simp only [stringsTrim, trimRightByte_append_replicate]
    exact stringsTrim_of_ends N 0 hh hl

/-- C16, witness: on a kernel that accepts every request and echoes `tun0`
followed by twelve zero bytes, the resolved name is `tun0`. -/
theorem setupFd_scenario_tun_witness :
    issued [] (setupFd tun0Kernel tunConfig 3 []).trace =
      [⟨3, Request.TUNSETIFF, Argp.ifReqPtr (createInterface.request [] 0x1001), 0⟩,
        ⟨3, Request.TUNSETPERSIST, Argp.imm 0, 0⟩] ∧
    (setupFd tun0Kernel tunConfig 3 []).name = [116, 117, 110, 48] :=
  ⟨((setupFd_scenario_tun tun0Kernel 3 []).2.2.2.2 (by decide)).1,
    ((setupFd_scenario_tun tun0Kernel 3 []).2.2.2.2 (by decide)).2.2.2 [116, 117, 110, 48]
      (by decide) (by decide) rfl⟩

/-- C17: for the TAP configuration named `mytap0` with multi-queue, TSO over
IPv4 and persistence, the creation request has the flags 0x1102 and the name
field `mytap0` followed by 10 zero bytes, the offload mask is 2, and when all
requests succeed the requests after creation are exactly TUNSETOFFLOAD with mask
2 followed by TUNSETPERSIST with value 1. -/
theorem setupFd_scenario_tap (k : Kernel) (fd : Nat) (tr : Trace) :
    setupFd.flags tapConfig = 0x1102 ∧
    (createInterface.request tapConfig.Name (setupFd.flags tapConfig)).Flags = 0x1102 ∧
    (createInterface.request tapConfig.Name (setupFd.flags tapConfig)).Name.val =
      [109, 121, 116, 97, 112, 48] ++ List.replicate 10 0 ∧
    offFlags tapConfig.PlatformSpecificParams = 2 ∧
    (∃ n rest, issued tr (setupFd k tapConfig fd tr).trace =
      ⟨fd, Request.TUNSETIFF,
        Argp.ifReqPtr (createInterface.request [109, 121, 116, 97, 112, 48] 0x1102), n⟩ ::
        rest) ∧
    ((∀ e ∈ issued tr (setupFd k tapConfig fd tr).trace, e.errno = 0) →
      issued tr (setupFd k tapConfig fd tr).trace =
        [⟨fd, Request.TUNSETIFF,
            Argp.ifReqPtr (createInterface.request [109, 121, 116, 97, 112, 48] 0x1102), 0⟩,
          ⟨fd, Request.TUNSETOFFLOAD, Argp.imm 2, 0⟩,
          ⟨fd, Request.TUNSETPERSIST, Argp.imm 1, 0⟩] ∧
      (setupFd k tapConfig fd tr).err = none) := by
  refine ⟨by decide, by decide, by decide, by decide, ?_, ?_⟩
  · obtain ⟨rest, h⟩ := setupFd_trace_head k tapConfig fd tr
    exact ⟨_, rest, by rw [h, issued_append]; rfl⟩
  · intro hall
    obtain ⟨h1, h2⟩ := setupFd_all_ok k tapConfig fd tr hall
    exact ⟨by rw [h1]; rfl, h2⟩

/-- C17, witness: on a kernel that accepts every request, the TAP scenario
issues creation, TUNSETOFFLOAD with mask 2 and TUNSETPERSIST with value 1. -/
theorem setupFd_scenario_tap_witness :
    issued [] (setupFd echoKernel tapConfig 3 []).trace =
      [⟨3, Request.TUNSETIFF,
          Argp.ifReqPtr (createInterface.request [109, 121, 116, 97, 112, 48] 0x1102), 0⟩,
        ⟨3, Request.TUNSETOFFLOAD, Argp.imm 2, 0⟩,
        ⟨3, Request.TUNSETPERSIST, Argp.imm 1, 0⟩] ∧
    (setupFd echoKernel tapConfig 3 []).name = [109, 121, 116, 97, 112, 48] :=
  ⟨((setupFd_scenario_tap echoKernel 3 []).2.2.2.2.2 (by decide)).1, by decide⟩

/-! ## The values of the two bit masks -/

/-- C18: for every configuration, also one whose device type is neither TUN nor
TAP, the creation flags assembled by `setupFd` are one of the four values
0x1001, 0x1002, 0x1101 and 0x1102, each of which occurs; no bit outside TUN,
TAP, NOPI and MULTIQUEUE is set; and every device type other than TUN gives the
TAP bit and not the TUN bit. -/
theorem setupFd_flags_four_values (config : Config) :
    (setupFd.flags config = 0x1001 ∨ setupFd.flags config = 0x1002 ∨
      setupFd.flags config = 0x1101 ∨ setupFd.flags config = 0x1102) ∧
    setupFd.flags config &&& (cIFFTUN ||| cIFFTAP ||| cIFFNOPI ||| cIFFMULTIQUEUE) =
      setupFd.flags config ∧
    (config.DeviceType ≠ TUN →
      setupFd.flags config &&& cIFFTAP = cIFFTAP ∧ setupFd.flags config &&& cIFFTUN = 0) ∧
    setupFd.flags tunConfig = 0x1001 ∧
    setupFd.flags { tunConfig with DeviceType := TAP } = 0x1002 ∧
    setupFd.flags { tapConfig with DeviceType := TUN } = 0x1101 ∧
    setupFd.flags tapConfig = 0x1102 ∧
    setupFd.flags { tunConfig with DeviceType := 7 } = 0x1002 := by
  refine ⟨?_, ?_, ?_, by decide, by decide, by decide, by decide, by decide⟩
  · rw [setupFd_flags_value]
    by_cases hd : config.DeviceType = TUN <;>
      cases config.PlatformSpecificParams.MultiQueue <;> simp [hd]
  · rw [setupFd_flags_value]
    by_cases hd : config.DeviceType = TUN <;>
      cases config.PlatformSpecificParams.MultiQueue <;>
      simp [hd, cIFFNOPI, cIFFTUN, cIFFTAP, cIFFMULTIQUEUE] <;> decide
  · intro hd
    rw [setupFd_flags_value]
    cases config.PlatformSpecificParams.MultiQueue <;>
      simp [hd, cIFFTUN, cIFFTAP] <;> decide

/-- Each offload toggle is the bit of its own value in the mask. -/
theorem offFlags_bits (p : PlatformSpecificParams) :
    (offFlags p &&& 1 ≠ 0 ↔ p.TunFCSum = true) ∧
    (offFlags p &&& 2 ≠ 0 ↔ p.TunFTso4 = true) ∧
    (offFlags p &&& 4 ≠ 0 ↔ p.TunFTso6 = true) ∧
    (offFlags p &&& 8 ≠ 0 ↔ p.TunFTsoEcn = true) ∧
    (offFlags p &&& 32 ≠ 0 ↔ p.TunFUso4 = true) ∧
    (offFlags p &&& 64 ≠ 0 ↔ p.TunFUso6 = true) ∧
    offFlags p &&& 16 = 0 ∧ offFlags p ≤ 0x6F := by
  rcases p with ⟨mq, v, a, b, c, d, e, f⟩
  cases a <;> cases b <;> cases c <;> cases d <;> cases e <;> cases f <;>
    simp [offFlags] <;> decide

theorem bool_eq_of_iff {P : Prop} {a b : Bool} (ha : P ↔ a = true) (hb : P ↔ b = true) :
    a = b := by
  cases a <;> cases b <;> simp_all

/-- C19: the offload mask assembled by `setDeviceOptions` determines the six
offload toggles (two parameter records with the same mask have the same six
toggles), never has the bit of value 16 set, is at most 0x6F, and each toggle is
recovered from the mask by testing the bit of its own value. -/
theorem offFlags_injective (p q : PlatformSpecificParams) :
    (offFlags p = offFlags q →
      p.TunFCSum = q.TunFCSum ∧ p.TunFTso4 = q.TunFTso4 ∧ p.TunFTso6 = q.TunFTso6 ∧
      p.TunFTsoEcn = q.TunFTsoEcn ∧ p.TunFUso4 = q.TunFUso4 ∧ p.TunFUso6 = q.TunFUso6) ∧
    offFlags p &&& 16 = 0 ∧
    offFlags p ≤ 0x6F ∧
    (p.TunFCSum = true ↔ offFlags p &&& 1 ≠ 0) ∧
    (p.TunFTso4 = true ↔ offFlags p &&& 2 ≠ 0) ∧
    (p.TunFTso6 = true ↔ offFlags p &&& 4 ≠ 0) ∧
    (p.TunFTsoEcn = true ↔ offFlags p &&& 8 ≠ 0) ∧
    (p.TunFUso4 = true ↔ offFlags p &&& 32 ≠ 0) ∧
    (p.TunFUso6 = true ↔ offFlags p &&& 64 ≠ 0) := by
  obtain ⟨p1, p2, p3, p4, p5, p6, p7, p8⟩ := offFlags_bits p
  obtain ⟨q1, q2, q3, q4, q5, q6, _, _⟩ := offFlags_bits q
  refine ⟨fun h => ?_, p7, p8, p1.symm, p2.symm, p3.symm, p4.symm, p5.symm, p6.symm⟩
  rw [← h] at q1 q2 q3 q4 q5 q6
  exact ⟨bool_eq_of_iff p1 q1, bool_eq_of_iff p2 q2, bool_eq_of_iff p3 q3,
    bool_eq_of_iff p4 q4, bool_eq_of_iff p5 q5, bool_eq_of_iff p6 q6⟩

/-! ## The file descriptor -/

/-- Two runs of one plan against two descriptors, on kernels whose answers agree
whenever the requests issued before agree up to the descriptor, return the same
error and issue the same requests up to the descriptor. -/
theorem runSteps_fd_frame (k₁ k₂ : Kernel) (fd₁ fd₂ : Nat)
    (hk : ∀ t₁ t₂ rq a, t₁.map Event.stripFd = t₂.map Event.stripFd →
      k₁ t₁ fd₁ rq a = k₂ t₂ fd₂ rq a)
    (steps : List Step) (tr₁ tr₂ : Trace)
    (htr : tr₁.map Event.stripFd = tr₂.map Event.stripFd) :
    (runSteps k₁ fd₁ steps tr₁).err = (runSteps k₂ fd₂ steps tr₂).err ∧
    (runSteps k₁ fd₁ steps tr₁).trace.map Event.stripFd =
      (runSteps k₂ fd₂ steps tr₂).trace.map Event.stripFd := by
  induction steps generalizing tr₁ tr₂ with
  | nil => exact ⟨rfl, htr⟩
  | cons s rest ih =>
    have hr := hk tr₁ tr₂ s.request s.argp htr
    have herr : (ioctl k₁ fd₁ s.request s.argp tr₁).err =
        (ioctl k₂ fd₂ s.request s.argp tr₂).err := by
      simp only [ioctl, hr]
    have htrace : (ioctl k₁ fd₁ s.request s.argp tr₁).trace.map Event.stripFd =
        (ioctl k₂ fd₂ s.request s.argp tr₂).trace.map Event.stripFd := by
      simp only [ioctl, hr, List.map_append, htr, List.map_cons, List.map_nil, Event.stripFd]
    simp only [runSteps]
    rw [herr]
    cases h : (ioctl k₂ fd₂ s.request s.argp tr₂).err with
    | some e => exact ⟨rfl, htrace⟩
    | none => exact ih _ _ htrace

theorem issued_map_stripFd (tr₁ tr₂ out₁ out₂ : Trace)
    (htr : tr₁.map Event.stripFd = tr₂.map Event.stripFd)
    (hout : out₁.map Event.stripFd = out₂.map Event.stripFd) :
    (issued tr₁ out₁).map Event.stripFd = (issued tr₂ out₂).map Event.stripFd := by
  have hlen : tr₁.length = tr₂.length := by
    have := congrArg List.length htr
    simpa using this
  simp only [issued, List.map_drop, hout, hlen]

/-- The requests of a plan whose first request the kernel refuses: that request
alone, and its joined error. -/
theorem runSteps_cons_refused (k : Kernel) (fd : Nat) (s : Step) (rest : List Step)
    (tr : Trace) (h : (k tr fd s.request s.argp).errno ≠ 0) :
    issued tr (runSteps k fd (s :: rest) tr).trace =
      [⟨fd, s.request, s.argp, (k tr fd s.request s.argp).errno⟩] ∧
    (runSteps k fd (s :: rest) tr).err = some (GoError.joinError
      [GoError.SyscallError "ioctl" (k tr fd s.request s.argp).errno,
        GoError.errorString s.descr]) := by
  have he := ioctl_err_of_ne_zero k fd s.request s.argp tr h
  simp only [runSteps, he, ioctl_trace, issued_append, errorsJoin_pair, and_self]

/-- The requests of a plan whose first request the kernel accepts: that request,
then the requests of the rest of the plan. -/
theorem runSteps_cons_accepted (k : Kernel) (fd : Nat) (s : Step) (rest : List Step)
    (tr : Trace) (h : (k tr fd s.request s.argp).errno = 0) :
    issued tr (runSteps k fd (s :: rest) tr).trace =
      ⟨fd, s.request, s.argp, (k tr fd s.request s.argp).errno⟩ ::
        issued (tr ++ [⟨fd, s.request, s.argp, (k tr fd s.request s.argp).errno⟩])
          (runSteps k fd rest
            (tr ++ [⟨fd, s.request, s.argp, (k tr fd s.request s.argp).errno⟩])).trace ∧
    (runSteps k fd (s :: rest) tr).err =
      (runSteps k fd rest
        (tr ++ [⟨fd, s.request, s.argp, (k tr fd s.request s.argp).errno⟩])).err := by
  have he := ioctl_err_of_zero k fd s.request s.argp tr h
  obtain ⟨new, hnew⟩ := runSteps_trace_extends k fd rest
    (tr ++ [⟨fd, s.request, s.argp, (k tr fd s.request s.argp).errno⟩])
  simp only [runSteps, he, ioctl_trace, and_true]
  rw [hnew, issued_append, List.append_assoc, issued_append]
  rfl

/-- Two runs of one plan, against any two descriptors and on any two kernels,
in which the kernel answered the same error number to every request that both
runs issued, return the same error and issue the same requests up to the
descriptor. -/
theorem runSteps_same_answers (k₁ k₂ : Kernel) (fd₁ fd₂ : Nat) (steps : List Step)
    (tr₁ tr₂ : Trace)
    (h : ∀ p ∈ List.zip (issued tr₁ (runSteps k₁ fd₁ steps tr₁).trace)
      (issued tr₂ (runSteps k₂ fd₂ steps tr₂).trace), p.1.errno = p.2.errno) :
    (runSteps k₁ fd₁ steps tr₁).err = (runSteps k₂ fd₂ steps tr₂).err ∧
    (issued tr₁ (runSteps k₁ fd₁ steps tr₁).trace).map Event.stripFd =
      (issued tr₂ (runSteps k₂ fd₂ steps tr₂).trace).map Event.stripFd := by
  induction steps generalizing tr₁ tr₂ with
  | nil => simp [runSteps, issued]
  | cons s rest ih =>
    by_cases h1 : (k₁ tr₁ fd₁ s.request s.argp).errno = 0 <;>
      by_cases h2 : (k₂ tr₂ fd₂ s.request s.argp).errno = 0
    · obtain ⟨a1, b1⟩ := runSteps_cons_accepted k₁ fd₁ s rest tr₁ h1
      obtain ⟨a2, b2⟩ := runSteps_cons_accepted k₂ fd₂ s rest tr₂ h2
      rw [a1, a2] at h
      have htail := ih _ _ (fun p hp => h p (by
        rw [List.zip_cons_cons]
        exact List.mem_cons_of_mem _ hp))
      rw [a1, a2, b1, b2]
      refine ⟨htail.1, ?_⟩
      have hs := htail.2
      simp only [h1, h2] at hs
      simp only [List.map_cons, Event.stripFd, h1, h2, hs]
    · exfalso
      obtain ⟨a1, _⟩ := runSteps_cons_accepted k₁ fd₁ s rest tr₁ h1
      obtain ⟨a2, _⟩ := runSteps_cons_refused k₂ fd₂ s rest tr₂ h2
      rw [a1, a2] at h
      have := h _ (by rw [List.zip_cons_cons]; exact List.mem_cons_self _ _)
      simp only at this
      exact h2 (this ▸ h1)
    · exfalso
      obtain ⟨a1, _⟩ := runSteps_cons_refused k₁ fd₁ s rest tr₁ h1
      obtain ⟨a2, _⟩ := runSteps_cons_accepted k₂ fd₂ s rest tr₂ h2
      rw [a1, a2] at h
      have := h _ (by rw [List.zip_cons_cons]; exact List.mem_cons_self _ _)
      simp only at this
      exact h1 (this.trans h2)
    · obtain ⟨a1, b1⟩ := runSteps_cons_refused k₁ fd₁ s rest tr₁ h1
      obtain ⟨a2, b2⟩ := runSteps_cons_refused k₂ fd₂ s rest tr₂ h2
      rw [a1, a2] at h
      have heq := h _ (by rw [List.zip_cons_cons]; exact List.mem_cons_self _ _)
      simp only at heq
      rw [a1, a2, b1, b2, heq]
      simp [Event.stripFd, heq]

/-- C20: every request `setupFd` issues, whatever the kernel answers, is issued
against the descriptor it was given.  And two runs with the same configuration
against two descriptors, on any two kernels, in which the kernel answered the
same error number to every request that both runs issued and echoed the same
name field on an accepted creation request, issue the same request codes and
arguments with the same error numbers and return the same name and the same
error. -/
theorem setupFd_fd_frame (k₁ k₂ : Kernel) (config : Config) (fd₁ fd₂ : Nat)
    (tr₁ tr₂ : Trace) :
    (∀ e ∈ issued tr₁ (setupFd k₁ config fd₁ tr₁).trace, e.fd = fd₁) ∧
    (∀ e ∈ issued tr₂ (setupFd k₂ config fd₂ tr₂).trace, e.fd = fd₂) ∧
    ((∀ p ∈ List.zip (issued tr₁ (setupFd k₁ config fd₁ tr₁).trace)
        (issued tr₂ (setupFd k₂ config fd₂ tr₂).trace), p.1.errno = p.2.errno) →
      ((k₁ tr₁ fd₁ Request.TUNSETIFF
          (Argp.ifReqPtr (createInterface.request config.Name (setupFd.flags config)))).errno
          = 0 →
        (k₁ tr₁ fd₁ Request.TUNSETIFF
          (Argp.ifReqPtr (createInterface.request config.Name (setupFd.flags config)))).req.Name =
        (k₂ tr₂ fd₂ Request.TUNSETIFF
          (Argp.ifReqPtr
            (createInterface.request config.Name (setupFd.flags config)))).req.Name) →
      (issued tr₁ (setupFd k₁ config fd₁ tr₁).trace).map Event.stripFd =
        (issued tr₂ (setupFd k₂ config fd₂ tr₂).trace).map Event.stripFd ∧
      (setupFd k₁ config fd₁ tr₁).name = (setupFd k₂ config fd₂ tr₂).name ∧
      (setupFd k₁ config fd₁ tr₁).err = (setupFd k₂ config fd₂ tr₂).err) := by
  refine ⟨?_, ?_, ?_⟩
  · intro e he
    obtain ⟨_, _, _, _, h⟩ := setupFd_issued_step k₁ config fd₁ tr₁ e he
    exact h
  · intro e he
    obtain ⟨_, _, _, _, h⟩ := setupFd_issued_step k₂ config fd₂ tr₂ e he
    exact h
  · intro hans hname
    have hans2 := hans
    rw [(setupFd_eq_runSteps k₁ config fd₁ tr₁).2, (setupFd_eq_runSteps k₂ config fd₂ tr₂).2]
      at hans2
    obtain ⟨herr, htrace⟩ :=
      runSteps_same_answers k₁ k₂ fd₁ fd₂ (setupSteps config) tr₁ tr₂ hans2
    rw [← (setupFd_eq_runSteps k₁ config fd₁ tr₁).1,
      ← (setupFd_eq_runSteps k₂ config fd₂ tr₂).1] at herr
    rw [← (setupFd_eq_runSteps k₁ config fd₁ tr₁).2,
      ← (setupFd_eq_runSteps k₂ config fd₂ tr₂).2] at htrace
    refine ⟨htrace, ?_, herr⟩
    rcases setupFd_name k₁ config fd₁ tr₁ with ⟨h1, n1⟩ | ⟨h1, _, _, n1⟩ <;>
      rcases setupFd_name k₂ config fd₂ tr₂ with ⟨h2, n2⟩ | ⟨h2, _, _, n2⟩
    · rw [n1, n2]
    · exact absurd (herr.trans h2) h1
    · exact absurd (herr.symm.trans h1) h2
    · have hzero : (k₁ tr₁ fd₁ Request.TUNSETIFF (Argp.ifReqPtr
          (createInterface.request config.Name (setupFd.flags config)))).errno = 0 := by
        by_contra hne
        obtain ⟨rest, hhead⟩ := setupFd_trace_head k₁ config fd₁ tr₁
        obtain ⟨_, _, _, _, _, _, _, _, h6⟩ := setupFd_failing_event k₁ config fd₁ tr₁ _
          (by rw [hhead, issued_append]; exact List.mem_cons_self _ _) hne
        rw [h1] at h6
        exact absurd h6 (by simp)
      rw [n1, n2, hname hzero]

/-- C20, witness: on the kernel with state per descriptor, whose answer to one
request does depend on the descriptor, the runs of the full configuration on the
descriptors 3 and 4 receive the same answers, issue the same requests and return
the same name and error. -/
theorem setupFd_fd_frame_witness :
    (perFdKernel [⟨3, Request.TUNSETIFF, Argp.imm 0, 0⟩] 3 Request.TUNSETPERSIST
      (Argp.imm 1)).errno = 0 ∧
    (perFdKernel [⟨3, Request.TUNSETIFF, Argp.imm 0, 0⟩] 4 Request.TUNSETPERSIST
      (Argp.imm 1)).errno = 9 ∧
    (∀ e ∈ issued [] (setupFd perFdKernel fullConfig 3 []).trace, e.fd = 3) ∧
    (∀ e ∈ issued [] (setupFd perFdKernel fullConfig 4 []).trace, e.fd = 4) ∧
    (issued [] (setupFd perFdKernel fullConfig 3 []).trace).length = 6 ∧
    (issued [] (setupFd perFdKernel fullConfig 3 []).trace).map Event.stripFd =
      (issued [] (setupFd perFdKernel fullConfig 4 []).trace).map Event.stripFd ∧
    (setupFd perFdKernel fullConfig 3 []).name = (setupFd perFdKernel fullConfig 4 []).name ∧
    (setupFd perFdKernel fullConfig 3 []).err = (setupFd perFdKernel fullConfig 4 []).err :=
  ⟨by decide, by decide, (setupFd_fd_frame perFdKernel perFdKernel fullConfig 3 4 [] []).1,
    (setupFd_fd_frame perFdKernel perFdKernel fullConfig 3 4 [] []).2.1,
    by decide,
    (setupFd_fd_frame perFdKernel perFdKernel fullConfig 3 4 [] []).2.2 (by decide)
      (fun _ => rfl)⟩

end Water
